import Mathlib

/-!
Verification of the Bitespeed identity-reconciliation service
(`src/services/identityService.ts`), shallowly embedded in Lean.

The Prisma `Contact` table is modelled as a `Store`: a list of contact
rows kept in insertion order (ids are assigned by an auto-increment
counter `nextId`, creation timestamps by a monotone clock `now`).
Database reads (`findMany` / `findFirst` with `orderBy: createdAt asc`)
are modelled by a stable `mergeSort` on the row list; writes
(`create` / `update` / `updateMany`) by explicit store transformations.
Exceptions thrown by the service are modelled with `Except String`;
since the service runs without transactions, writes performed before a
throw persist, so each operation returns the (possibly mutated) store
alongside the `Except` result.
-/

namespace Bitespeed

/-- `LinkPrecedence` enum from `src/types/index.ts`. -/
inductive LinkPrecedence where
  | primary
  | secondary
deriving DecidableEq, Repr

/-- A row of the Prisma `Contact` model.  `email`/`phoneNumber` are nullable
strings, `linkedId` a nullable reference, `createdAt` a timestamp (modelled
as `Nat`), `deletedAt` the soft-delete marker. -/
structure Contact where
  id : Nat
  email : Option String
  phoneNumber : Option String
  linkedId : Option Nat
  linkPrecedence : LinkPrecedence
  createdAt : Nat
  deletedAt : Option Nat
deriving DecidableEq, Repr

/-- The contact store: rows in insertion order, the auto-increment counter,
and the creation-time clock. -/
structure Store where
  contacts : List Contact
  nextId : Nat
  now : Nat
deriving DecidableEq, Repr

/-- `IdentifyRequest` from `src/types/index.ts` (absent field = `undefined`). -/
structure IdentifyRequest where
  email : Option String
  phoneNumber : Option String
deriving DecidableEq, Repr

/-- The `contact` object of `IdentifyResponse` from `src/types/index.ts`. -/
structure ContactResponse where
  primaryContactId : Nat
  emails : List String
  phoneNumbers : List String
  secondaryContactIds : List Nat
deriving DecidableEq, Repr

deriving instance DecidableEq for Except

/-- JavaScript string truthiness for an optional string: `undefined`/`null`
and the empty string are falsy. -/
def optTruthy : Option String → Bool
  | some s => s ≠ ""
  | none => false

/-- Comparator used for every `orderBy: { createdAt: 'asc' }` (and for the
`Array.prototype.sort` comparator `a.createdAt - b.createdAt` in
`mergePrimaryContacts`); `mergeSort` with it is a stable ascending sort. -/
def byCreatedAt (a b : Contact) : Bool :=
  a.createdAt ≤ b.createdAt

/-- `prisma.contact.create`: assigns the next id and the current clock value,
appends the row. -/
def Store.create (s : Store) (email phoneNumber : Option String)
    (linkedId : Option Nat) (pr : LinkPrecedence) : Contact × Store :=
  let c : Contact :=
    { id := s.nextId, email := email, phoneNumber := phoneNumber,
      linkedId := linkedId, linkPrecedence := pr,
      createdAt := s.now, deletedAt := none }
  (c, { contacts := s.contacts ++ [c], nextId := s.nextId + 1, now := s.now + 1 })

/-- `sanitizeInput` (identityService.ts lines 32-37):
`email?.trim().toLowerCase()` and
`phoneNumber ? String(phoneNumber).replace(/\D/g, '') : undefined`.
Note the phone branch: an empty string is falsy, hence becomes `undefined`. -/
def sanitizeInput (data : IdentifyRequest) : IdentifyRequest :=
  { email := data.email.map (fun e => e.trim.toLower),
    phoneNumber :=
      match data.phoneNumber with
      | some p => if p = "" then none else some (String.mk (p.toList.filter Char.isDigit))
      | none => none }

/-- The `OR` of the `where` conditions built in `findMatchingContacts`
(lines 92-114): a condition for a field is pushed only when the field is
truthy, and each condition also requires `deletedAt: null`. -/
def matchesWhere (email phoneNumber : Option String) (c : Contact) : Bool :=
  (optTruthy email && (c.email = email) && (c.deletedAt = none)) ||
  (optTruthy phoneNumber && (c.phoneNumber = phoneNumber) && (c.deletedAt = none))

/-- `findMatchingContacts` (lines 92-114): if no condition was pushed return
`[]`, else `findMany` with the `OR` of the conditions, ordered by
`createdAt` ascending. -/
def findMatchingContacts (email phoneNumber : Option String) (s : Store) : List Contact :=
  if !optTruthy email && !optTruthy phoneNumber then []
  else (s.contacts.filter (matchesWhere email phoneNumber)).mergeSort byCreatedAt

/-- JavaScript strict equality `stored === input` between a stored nullable
column and an input that may be `undefined`: `null === undefined` is `false`,
so the comparison holds only when both sides are present, equal strings. -/
def jsStrictEq : Option String → Option String → Bool
  | some a, some b => a = b
  | _, _ => false

/-- `shouldCreateNewContact` (lines 119-149). -/
def shouldCreateNewContact (existingContacts : List Contact)
    (email phoneNumber : Option String) : Bool :=
  let hasExactMatch := existingContacts.any fun contact =>
    jsStrictEq contact.email email && jsStrictEq contact.phoneNumber phoneNumber
  if hasExactMatch then false
  else
    let hasEmail := optTruthy email
    let hasPhone := optTruthy phoneNumber
    if hasEmail && hasPhone then true
    else if hasEmail then
      !(existingContacts.any fun c => jsStrictEq c.email email)
    else if hasPhone then
      !(existingContacts.any fun c => jsStrictEq c.phoneNumber phoneNumber)
    else false

/-- The `Array.prototype.reduce` in `findPrimaryContact` (lines 162-164):
keep the accumulator when strictly older, otherwise take the current
element (so on equal `createdAt` the later element wins). -/
def reduceOldest : Contact → List Contact → Contact
  | oldest, [] => oldest
  | oldest, current :: rest =>
      reduceOldest (if oldest.createdAt < current.createdAt then oldest else current) rest

/-- Predicate of the `findFirst` query in `findPrimaryContact`
(lines 176-183): `id` among the collected `linkedId`s, `primary`, not
soft-deleted. -/
def primaryLookupPred (linkedIds : List Nat) (c : Contact) : Bool :=
  linkedIds.contains c.id && (c.linkPrecedence = LinkPrecedence.primary)
    && (c.deletedAt = none)

/-- `findPrimaryContact` (lines 154-190). -/
def findPrimaryContact (contacts : List Contact) (s : Store) : Except String Contact :=
  let primaryContacts := contacts.filter fun c => c.linkPrecedence = LinkPrecedence.primary
  match primaryContacts with
  | p :: rest => .ok (reduceOldest p rest)
  | [] =>
    let linkedIds := contacts.filterMap (fun c => c.linkedId)
    if linkedIds.length = 0 then
      .error "Data integrity issue: Secondary contacts without linkedId"
    else
      match (s.contacts.mergeSort byCreatedAt).find? (primaryLookupPred linkedIds) with
      | some primaryContact => .ok primaryContact
      | none => .error "Data integrity issue: No primary contact found"

/-- `prisma.contact.update({ where: { id }, data: { linkPrecedence:
secondary, linkedId: oldestPrimary.id } })` in `mergePrimaryContacts`. -/
def demoteStep (oldestId contactId : Nat) (l : List Contact) : List Contact :=
  l.map fun c =>
    if c.id = contactId then
      { c with linkPrecedence := LinkPrecedence.secondary, linkedId := some oldestId }
    else c

/-- `prisma.contact.updateMany({ where: { linkedId: contact.id, deletedAt:
null }, data: { linkedId: oldestPrimary.id } })` in `mergePrimaryContacts`. -/
def repointStep (oldestId contactId : Nat) (l : List Contact) : List Contact :=
  l.map fun c =>
    if c.linkedId = some contactId ∧ c.deletedAt = none then
      { c with linkedId := some oldestId }
    else c

/-- `mergePrimaryContacts` (lines 195-226): sort the primaries by
`createdAt` (stably), keep the first as the surviving primary, and for each
newer primary in order demote it and re-point its non-deleted secondaries. -/
def mergePrimaryContacts (primaryContacts : List Contact) (s : Store) : Store :=
  let sortedPrimaries := primaryContacts.mergeSort byCreatedAt
  match sortedPrimaries with
  | [] => s
  | oldestPrimary :: newerPrimaries =>
    let newContacts := newerPrimaries.foldl
      (fun l contact => repointStep oldestPrimary.id contact.id
        (demoteStep oldestPrimary.id contact.id l)) s.contacts
    { s with contacts := newContacts }

/-- Predicate of the chain query in `getAllContactsInChain` (lines 234-243):
the primary itself or anyone linked to it, not soft-deleted. -/
def chainPred (primaryId : Nat) (c : Contact) : Bool :=
  ((c.id = primaryId) || (c.linkedId = some primaryId)) && (c.deletedAt = none)

/-- `getAllContactsInChain` (lines 231-244). -/
def getAllContactsInChain (initialContacts : List Contact) (s : Store) :
    Except String (List Contact) :=
  (findPrimaryContact initialContacts s).map fun primaryContact =>
    (s.contacts.filter (chainPred primaryContact.id)).mergeSort byCreatedAt

/-- The `Set.add` pattern of `formatResponse`: JavaScript `Set` preserves
insertion order and ignores re-insertions. -/
def addUnique (l : List String) (x : String) : List String :=
  if x ∈ l then l else l ++ [x]

/-- The per-field collection loop of `formatResponse` (lines 264-273):
`if (contact.email) emails.add(contact.email)` — the guard is JavaScript
truthiness, so empty strings are skipped as well as `null`. -/
def collectField (f : Contact → Option String) (contacts : List Contact) : List String :=
  contacts.foldl
    (fun acc c =>
      match f c with
      | some v => if v = "" then acc else addUnique acc v
      | none => acc) []

/-- `formatResponse` (lines 249-283). `secondaryContactIds.sort((a, b) => a - b)`
is an ascending numeric sort. -/
def formatResponse (contacts : List Contact) : Except String ContactResponse :=
  match contacts.find? (fun c => c.linkPrecedence = LinkPrecedence.primary) with
  | none => .error "No primary contact found"
  | some primaryContact =>
    .ok { primaryContactId := primaryContact.id
        , emails := collectField Contact.email contacts
        , phoneNumbers := collectField Contact.phoneNumber contacts
        , secondaryContactIds :=
            ((contacts.filter fun c => c.linkPrecedence = LinkPrecedence.secondary).map
              (fun c => c.id)).mergeSort (fun a b => a ≤ b) }

/-- Tail of `processExistingContacts` (lines 75-86): merge if more than one
primary was matched, then re-read the whole chain (from the stale matching
set) for the response. -/
def afterCreatePhase (matchingContacts : List Contact) (s : Store) :
    Store × Except String (List Contact) :=
  let primaryContacts := matchingContacts.filter fun c =>
    c.linkPrecedence = LinkPrecedence.primary
  let s2 := if primaryContacts.length > 1 then mergePrimaryContacts primaryContacts s else s
  (s2, getAllContactsInChain matchingContacts s2)

/-- Head of `processExistingContacts` (lines 57-73): create a secondary
linked to the resolved primary when the decision procedure says so.  A throw
from `findPrimaryContact` aborts the request before any write. -/
def processExistingChain (matchingContacts : List Contact) (data : IdentifyRequest)
    (s : Store) : Store × Except String (List Contact) :=
  if shouldCreateNewContact matchingContacts data.email data.phoneNumber then
    match findPrimaryContact matchingContacts s with
    | .error e => (s, .error e)
    | .ok primaryContact =>
      let created := s.create data.email data.phoneNumber (some primaryContact.id)
        LinkPrecedence.secondary
      afterCreatePhase matchingContacts created.2
  else afterCreatePhase matchingContacts s

/-- `identify` (lines 10-27) up to the point where the final chain is known;
`handleNewContact` (lines 42-52) is the no-match branch, whose "chain" is the
single freshly created primary. -/
def identifyChain (data : IdentifyRequest) (s : Store) :
    Store × Except String (List Contact) :=
  let sanitizedData := sanitizeInput data
  let matchingContacts :=
    findMatchingContacts sanitizedData.email sanitizedData.phoneNumber s
  if matchingContacts.length = 0 then
    let created := s.create sanitizedData.email sanitizedData.phoneNumber none
      LinkPrecedence.primary
    (created.2, .ok [created.1])
  else
    processExistingChain matchingContacts sanitizedData s

/-- `identify` (lines 10-27): both branches end by formatting the final
chain; the store is returned alongside because writes survive a throw. -/
def identify (data : IdentifyRequest) (s : Store) :
    Store × Except String ContactResponse :=
  let r := identifyChain data s
  (r.1, r.2.bind formatResponse)

/-- Propositional: an `Except` is an error. -/
def isErr {α : Type} : Except String α → Prop
  | .error _ => True
  | .ok _ => False

/-! ### Specification-side definitions

These follow the wording of the spec (not the source); they are compared
with the source-derived definitions in the theorems below. -/

/-- Modelled from the spec, §4.3 "New-Record Decision": the four-rule policy
evaluated in order, with field comparison "as given, including both being
absent" read as plain equality of optional values. -/
def specNewRecordPolicy (matchingSet : List Contact)
    (email phoneNumber : Option String) : Bool :=
  if matchingSet.any (fun c => c.email = email ∧ c.phoneNumber = phoneNumber) then false
  else if email.isSome && phoneNumber.isSome then true
  else if email.isSome then !(matchingSet.any fun c => c.email = email)
  else if phoneNumber.isSome then !(matchingSet.any fun c => c.phoneNumber = phoneNumber)
  else false

/-- Keep the first occurrence of each value, in order (the spec's
"unique values in order ..., skipping duplicates"). -/
def uniqueInOrder : List String → List String
  | [] => []
  | x :: xs => x :: uniqueInOrder (xs.filter fun y => y ≠ x)
termination_by l => l.length
decreasing_by
  simp only [List.length_cons]
  exact Nat.lt_succ_of_le (List.length_filter_le _ _)

/-- The truthy values of a field over a list of contacts, in order (the
spec's "each ... in `createdAt` order, skipping empties"). -/
def truthyValues (f : Contact → Option String) (contacts : List Contact) : List String :=
  contacts.filterMap fun c =>
    match f c with
    | some v => if v = "" then none else some v
    | none => none

/-- Store well-formedness: rows are listed in insertion order (ids strictly
increasing, creation times non-decreasing — the database assigns both
monotonically), every id is below the auto-increment counter and every
creation time below the clock. -/
def storeLe (a b : Contact) : Prop :=
  a.id < b.id ∧ a.createdAt ≤ b.createdAt

/-- Well-formed store. -/
def WF (s : Store) : Prop :=
  s.contacts.Pairwise storeLe ∧
  (∀ c ∈ s.contacts, c.id < s.nextId) ∧
  (∀ c ∈ s.contacts, c.createdAt < s.now)

/-- The chain invariant of spec §3/§8: every non-deleted primary has no
`linkedId`; every non-deleted secondary's `linkedId` points directly at a
non-deleted primary row of the store (hence never at a secondary, and each
chain has exactly one primary). -/
def Inv (s : Store) : Prop :=
  ∀ c ∈ s.contacts, c.deletedAt = none →
    (c.linkPrecedence = LinkPrecedence.primary → c.linkedId = none) ∧
    (c.linkPrecedence = LinkPrecedence.secondary →
      ∃ p ∈ s.contacts, p.deletedAt = none ∧
        p.linkPrecedence = LinkPrecedence.primary ∧ c.linkedId = some p.id)

/-- Closed form of the row transformation performed by
`mergePrimaryContacts` (proved below): demote the newer primaries, re-point
non-deleted rows linked to them. -/
def mergeCF (oldestId : Nat) (newerIds : List Nat) (c : Contact) : Contact :=
  if c.id ∈ newerIds then
    { c with linkPrecedence := LinkPrecedence.secondary, linkedId := some oldestId }
  else if c.deletedAt = none ∧ ∃ a ∈ newerIds, c.linkedId = some a then
    { c with linkedId := some oldestId }
  else c

/-- Decidability of `storeLe`, used to evaluate `WF` on concrete stores. -/
instance storeLeDecidable : DecidableRel storeLe := fun a b =>
  decidable_of_iff (a.id < b.id ∧ a.createdAt ≤ b.createdAt) Iff.rfl

/-- Decidability of `WF`, for concrete stores. -/
instance wfDecidable (s : Store) : Decidable (WF s) :=
  decidable_of_iff (s.contacts.Pairwise storeLe ∧
    (∀ c ∈ s.contacts, c.id < s.nextId) ∧
    (∀ c ∈ s.contacts, c.createdAt < s.now)) Iff.rfl

/-- Decidability of `Inv`, for concrete stores. -/
instance invDecidable (s : Store) : Decidable (Inv s) :=
  decidable_of_iff (∀ c ∈ s.contacts, c.deletedAt = none →
    (c.linkPrecedence = LinkPrecedence.primary → c.linkedId = none) ∧
    (c.linkPrecedence = LinkPrecedence.secondary →
      ∃ p ∈ s.contacts, p.deletedAt = none ∧
        p.linkPrecedence = LinkPrecedence.primary ∧ c.linkedId = some p.id)) Iff.rfl

/-! ### Infrastructure lemmas -/

lemma storeLe_byCreatedAt {a b : Contact} (h : storeLe a b) : byCreatedAt a b = true := by
  simp only [byCreatedAt, decide_eq_true_eq]
  exact h.2

lemma wf_sorted_byCreatedAt {s : Store} (h : WF s) :
    s.contacts.Pairwise (fun a b => byCreatedAt a b = true) :=
  h.1.imp storeLe_byCreatedAt

lemma mergeSort_filter_eq {s : Store} (h : WF s) (p : Contact → Bool) :
    (s.contacts.filter p).mergeSort byCreatedAt = s.contacts.filter p :=
  List.mergeSort_of_sorted ((wf_sorted_byCreatedAt h).filter p)

lemma mergeSort_contacts_eq {s : Store} (h : WF s) :
    s.contacts.mergeSort byCreatedAt = s.contacts :=
  List.mergeSort_of_sorted (wf_sorted_byCreatedAt h)

lemma matchesWhere_false_of_falsy {e p : Option String} (he : optTruthy e = false)
    (hp : optTruthy p = false) (c : Contact) : matchesWhere e p c = false := by
  simp [matchesWhere, he, hp]

lemma findMatching_eq_filter {s : Store} (h : WF s) (e p : Option String) :
    findMatchingContacts e p s = s.contacts.filter (matchesWhere e p) := by
  unfold findMatchingContacts
  split
  · rename_i hcond
    simp only [Bool.and_eq_true, Bool.not_eq_true'] at hcond
    symm
    rw [List.filter_eq_nil_iff]
    intro c _
    simp [matchesWhere_false_of_falsy hcond.1 hcond.2 c]
  · exact mergeSort_filter_eq h _

lemma matched_mem {e p : Option String} {s : Store} {c : Contact}
    (hc : c ∈ findMatchingContacts e p s) : c ∈ s.contacts := by
  unfold findMatchingContacts at hc
  split at hc
  · simp at hc
  · exact (List.filter_sublist _).subset (List.mem_mergeSort.mp hc)

lemma matched_props {e p : Option String} {s : Store} {c : Contact}
    (hc : c ∈ findMatchingContacts e p s) : matchesWhere e p c = true := by
  unfold findMatchingContacts at hc
  split at hc
  · simp at hc
  · exact (List.mem_filter.mp (List.mem_mergeSort.mp hc)).2

lemma matched_not_deleted {e p : Option String} {s : Store} {c : Contact}
    (hc : c ∈ findMatchingContacts e p s) : c.deletedAt = none := by
  have h := matched_props hc
  simp only [matchesWhere, Bool.or_eq_true, Bool.and_eq_true, decide_eq_true_eq] at h
  rcases h with h | h
  · exact h.2
  · exact h.2

/-- The matched list is, under well-formedness, a `filter` of the store,
hence inherits its pairwise ordering. -/
lemma matched_pairwise {e p : Option String} {s : Store} (h : WF s) :
    (findMatchingContacts e p s).Pairwise storeLe := by
  rw [findMatching_eq_filter h]
  exact h.1.filter _

/-- Fresh-row description of `Store.create`. -/
lemma create_fst (s : Store) (e p : Option String) (lid : Option Nat) (pr : LinkPrecedence) :
    (s.create e p lid pr).1 =
      { id := s.nextId, email := e, phoneNumber := p, linkedId := lid,
        linkPrecedence := pr, createdAt := s.now, deletedAt := none } := rfl

lemma create_snd_contacts (s : Store) (e p : Option String) (lid : Option Nat)
    (pr : LinkPrecedence) :
    (s.create e p lid pr).2.contacts = s.contacts ++ [(s.create e p lid pr).1] := rfl

lemma wf_create {s : Store} (h : WF s) (e p : Option String) (lid : Option Nat)
    (pr : LinkPrecedence) : WF (s.create e p lid pr).2 := by
  obtain ⟨hpw, hid, htime⟩ := h
  refine ⟨?_, ?_, ?_⟩
  · rw [create_snd_contacts, List.pairwise_append]
    refine ⟨hpw, List.pairwise_singleton _ _, ?_⟩
    intro a ha b hb
    simp only [List.mem_singleton] at hb
    subst hb
    exact ⟨hid a ha, Nat.le_of_lt (htime a ha)⟩
  · intro c hc
    rw [create_snd_contacts, List.mem_append] at hc
    rcases hc with hc | hc
    · exact Nat.lt_trans (hid c hc) (Nat.lt_succ_self _)
    · simp only [List.mem_singleton] at hc
      subst hc
      exact Nat.lt_succ_self _
  · intro c hc
    rw [create_snd_contacts, List.mem_append] at hc
    rcases hc with hc | hc
    · exact Nat.lt_trans (htime c hc) (Nat.lt_succ_self _)
    · simp only [List.mem_singleton] at hc
      subst hc
      exact Nat.lt_succ_self _

lemma inv_create {s : Store} (h : Inv s) (e p : Option String) (lid : Option Nat)
    (pr : LinkPrecedence)
    (hok : pr = LinkPrecedence.primary → lid = none)
    (hsec : pr = LinkPrecedence.secondary →
      ∃ R ∈ s.contacts, R.deletedAt = none ∧
        R.linkPrecedence = LinkPrecedence.primary ∧ lid = some R.id) :
    Inv (s.create e p lid pr).2 := by
  intro c hc hdel
  rw [create_snd_contacts, List.mem_append] at hc
  rcases hc with hc | hc
  · obtain ⟨h1, h2⟩ := h c hc hdel
    refine ⟨h1, fun hs => ?_⟩
    obtain ⟨q, hq, hqd, hqp, hql⟩ := h2 hs
    exact ⟨q, by rw [create_snd_contacts]; exact List.mem_append_left _ hq, hqd, hqp, hql⟩
  · simp only [List.mem_singleton] at hc
    subst hc
    rw [create_fst]
    constructor
    · intro hpr
      exact hok hpr
    · intro hpr
      obtain ⟨R, hR, hRd, hRp, hRl⟩ := hsec hpr
      exact ⟨R, by rw [create_snd_contacts]; exact List.mem_append_left _ hR, hRd, hRp, hRl⟩

/-! ### Closed form of `mergePrimaryContacts` -/

lemma mergeCF_nil (o : Nat) (c : Contact) : mergeCF o [] c = c := by
  unfold mergeCF
  rw [if_neg (by simp), if_neg (by simp)]

lemma mergeCF_id_eq (o : Nat) (ids : List Nat) (c : Contact) :
    (mergeCF o ids c).id = c.id := by
  unfold mergeCF
  split
  · rfl
  · split
    · rfl
    · rfl

lemma mergeCF_createdAt_eq (o : Nat) (ids : List Nat) (c : Contact) :
    (mergeCF o ids c).createdAt = c.createdAt := by
  unfold mergeCF
  split
  · rfl
  · split
    · rfl
    · rfl

lemma mergeCF_deletedAt_eq (o : Nat) (ids : List Nat) (c : Contact) :
    (mergeCF o ids c).deletedAt = c.deletedAt := by
  unfold mergeCF
  split
  · rfl
  · split
    · rfl
    · rfl

lemma mergeCF_email_eq (o : Nat) (ids : List Nat) (c : Contact) :
    (mergeCF o ids c).email = c.email := by
  unfold mergeCF
  split
  · rfl
  · split
    · rfl
    · rfl

lemma mergeCF_phone_eq (o : Nat) (ids : List Nat) (c : Contact) :
    (mergeCF o ids c).phoneNumber = c.phoneNumber := by
  unfold mergeCF
  split
  · rfl
  · split
    · rfl
    · rfl

lemma mergeCF_demote {o : Nat} {ids : List Nat} {c : Contact} (h : c.id ∈ ids) :
    mergeCF o ids c =
      { c with linkPrecedence := LinkPrecedence.secondary, linkedId := some o } := by
  unfold mergeCF
  rw [if_pos h]

lemma mergeCF_repoint {o : Nat} {ids : List Nat} {c : Contact} (h : c.id ∉ ids)
    (h2 : c.deletedAt = none ∧ ∃ a ∈ ids, c.linkedId = some a) :
    mergeCF o ids c = { c with linkedId := some o } := by
  unfold mergeCF
  rw [if_neg h, if_pos h2]

lemma mergeCF_skip {o : Nat} {ids : List Nat} {c : Contact} (h : c.id ∉ ids)
    (h2 : ¬(c.deletedAt = none ∧ ∃ a ∈ ids, c.linkedId = some a)) :
    mergeCF o ids c = c := by
  unfold mergeCF
  rw [if_neg h, if_neg h2]

/-- One demote-then-repoint pass followed by the closed form over the rest
equals the closed form over the whole list, provided the surviving
primary's id is not among the processed ids. -/
lemma mergeCF_step (o : Nat) (a : Contact) (restIds : List Nat)
    (h1 : o ≠ a.id) (h2 : o ∉ restIds) (c : Contact) :
    mergeCF o restIds
      ((fun x => if x.linkedId = some a.id ∧ x.deletedAt = none then
          { x with linkedId := some o } else x)
        ((fun x => if x.id = a.id then
          { x with linkPrecedence := LinkPrecedence.secondary, linkedId := some o }
          else x) c))
    = mergeCF o (a.id :: restIds) c := by
  by_cases hca : c.id = a.id
  · by_cases hmem : c.id ∈ restIds
    · simp [mergeCF, hca, hmem, h1]
    · simp [mergeCF, hca, hmem, h1, h2]
  · by_cases hrep : c.linkedId = some a.id ∧ c.deletedAt = none
    · by_cases hmem : c.id ∈ restIds
      · simp [mergeCF, hca, hmem, hrep.1, hrep.2, h1, h2]
      · simp [mergeCF, hca, hmem, hrep.1, hrep.2, h1, h2]
    · by_cases hmem : c.id ∈ restIds
      · simp [mergeCF, hca, hmem, hrep, h1, h2]
      · by_cases hd : c.deletedAt = none
        · have hne : c.linkedId ≠ some a.id := fun hl => hrep ⟨hl, hd⟩
          simp [mergeCF, hca, hmem, hd, hne]
        · simp [mergeCF, hca, hmem, hd]

/-- The merge fold is pointwise the closed form. -/
lemma mergeFoldCF (o : Nat) (newer : List Contact) (l : List Contact)
    (h : o ∉ newer.map (fun c => c.id)) :
    newer.foldl (fun acc contact =>
        repointStep o contact.id (demoteStep o contact.id acc)) l
      = l.map (mergeCF o (newer.map fun c => c.id)) := by
  induction newer generalizing l with
  | nil =>
    simp only [List.foldl_nil, List.map_nil]
    rw [List.map_congr_left (g := id) (fun c _ => mergeCF_nil o c), List.map_id]
  | cons a rest ih =>
    have hne : o ≠ a.id := by
      intro he
      exact h (by simp [he])
    have hnr : o ∉ rest.map (fun c => c.id) := by
      intro he
      exact h (by simp only [List.map_cons, List.mem_cons]; exact Or.inr he)
    rw [List.foldl_cons, ih _ hnr]
    unfold repointStep demoteStep
    rw [List.map_map, List.map_map, List.map_cons]
    refine List.map_congr_left fun c _ => ?_
    exact mergeCF_step o a (rest.map fun c => c.id) hne hnr c

/-- `mergePrimaryContacts` is a single `map` of the closed form over the
store, once the sorted primaries are known. -/
lemma mergePrimary_eq_map {prims : List Contact} (s : Store) {oldest : Contact}
    {newer : List Contact} (hsort : prims.mergeSort byCreatedAt = oldest :: newer)
    (h : oldest.id ∉ newer.map (fun c => c.id)) :
    mergePrimaryContacts prims s =
      { s with contacts := s.contacts.map (mergeCF oldest.id (newer.map fun c => c.id)) } := by
  unfold mergePrimaryContacts
  rw [hsort]
  simp only []
  rw [mergeFoldCF _ _ _ h]

/-- A `map` that preserves ids and creation times preserves well-formedness. -/
lemma wf_map {s : Store} (h : WF s) (f : Contact → Contact)
    (hid : ∀ c, (f c).id = c.id) (ht : ∀ c, (f c).createdAt = c.createdAt) :
    WF { s with contacts := s.contacts.map f } := by
  obtain ⟨hpw, hidlt, htlt⟩ := h
  refine ⟨?_, ?_, ?_⟩
  · rw [List.pairwise_map]
    exact hpw.imp fun {a b} hab => ⟨by rw [hid, hid]; exact hab.1, by rw [ht, ht]; exact hab.2⟩
  · intro c hc
    obtain ⟨c0, hc0, rfl⟩ := List.mem_map.mp hc
    rw [hid]
    exact hidlt c0 hc0
  · intro c hc
    obtain ⟨c0, hc0, rfl⟩ := List.mem_map.mp hc
    rw [ht]
    exact htlt c0 hc0

/-- The chain invariant survives the merge transformation, provided the
surviving primary is a non-deleted primary row of the store and is not
among the demoted ids. -/
lemma inv_merge_map {s : Store} (hInv : Inv s) {oldest : Contact} {ids : List Nat}
    (hmem : oldest ∈ s.contacts) (hdel : oldest.deletedAt = none)
    (hprim : oldest.linkPrecedence = LinkPrecedence.primary)
    (hnin : oldest.id ∉ ids) :
    Inv { s with contacts := s.contacts.map (mergeCF oldest.id ids) } := by
  have hnone : oldest.linkedId = none := (hInv oldest hmem hdel).1 hprim
  have holdfix : mergeCF oldest.id ids oldest = oldest := by
    refine mergeCF_skip hnin ?_
    rintro ⟨_, x, _, hx⟩
    rw [hnone] at hx
    cases hx
  have holdmem : oldest ∈ s.contacts.map (mergeCF oldest.id ids) :=
    List.mem_map.mpr ⟨oldest, hmem, holdfix⟩
  intro c' hc' hdel'
  obtain ⟨c, hc, rfl⟩ := List.mem_map.mp hc'
  rw [mergeCF_deletedAt_eq] at hdel'
  by_cases hcid : c.id ∈ ids
  · rw [mergeCF_demote hcid]
    constructor
    · intro hp
      exact absurd hp (by simp)
    · intro _
      exact ⟨oldest, holdmem, hdel, hprim, rfl⟩
  · by_cases hrep : c.deletedAt = none ∧ ∃ a ∈ ids, c.linkedId = some a
    · rw [mergeCF_repoint hcid hrep]
      constructor
      · intro hp
        have := (hInv c hc hdel').1 hp
        obtain ⟨_, x, _, hx⟩ := hrep
        rw [this] at hx
        cases hx
      · intro _
        exact ⟨oldest, holdmem, hdel, hprim, rfl⟩
    · rw [mergeCF_skip hcid hrep]
      obtain ⟨h1, h2⟩ := hInv c hc hdel'
      refine ⟨h1, fun hs => ?_⟩
      obtain ⟨p, hp, hpd, hpp, hpl⟩ := h2 hs
      have hpnin : p.id ∉ ids := by
        intro hpin
        exact hrep ⟨hdel', p.id, hpin, hpl⟩
      have hpfix : mergeCF oldest.id ids p = p := by
        refine mergeCF_skip hpnin ?_
        rintro ⟨_, x, _, hx⟩
        rw [(hInv p hp hpd).1 hpp] at hx
        cases hx
      exact ⟨p, List.mem_map.mpr ⟨p, hp, hpfix⟩, hpd, hpp, hpl⟩

/-! ### Primary resolution lemmas -/

lemma reduceOldest_mem : ∀ (l : List Contact) (a : Contact), reduceOldest a l ∈ a :: l := by
  intro l
  induction l with
  | nil =>
    intro a
    simp [reduceOldest]
  | cons b t ih =>
    intro a
    rw [reduceOldest]
    by_cases h : a.createdAt < b.createdAt
    · rw [if_pos h]
      rcases List.mem_cons.mp (ih a) with h1 | h1
      · rw [h1]
        exact List.mem_cons_self _ _
      · exact List.mem_cons_of_mem _ (List.mem_cons_of_mem _ h1)
    · rw [if_neg h]
      rcases List.mem_cons.mp (ih b) with h1 | h1
      · rw [h1]
        exact List.mem_cons_of_mem _ (List.mem_cons_self _ _)
      · exact List.mem_cons_of_mem _ (List.mem_cons_of_mem _ h1)

lemma reduceOldest_min : ∀ (l : List Contact) (a : Contact),
    ∀ q ∈ a :: l, (reduceOldest a l).createdAt ≤ q.createdAt := by
  intro l
  induction l with
  | nil =>
    intro a q hq
    rcases List.mem_cons.mp hq with hqa | hq
    · rw [hqa]
      simp [reduceOldest]
    · cases hq
  | cons b t ih =>
    intro a q hq
    rw [reduceOldest]
    have hma : (if a.createdAt < b.createdAt then a else b).createdAt ≤ a.createdAt := by
      split
      · exact Nat.le_refl _
      · rename_i hlt
        exact Nat.le_of_not_lt hlt
    have hmb : (if a.createdAt < b.createdAt then a else b).createdAt ≤ b.createdAt := by
      split
      · rename_i hlt
        exact Nat.le_of_lt hlt
      · exact Nat.le_refl _
    have hself := ih (if a.createdAt < b.createdAt then a else b)
      (if a.createdAt < b.createdAt then a else b) (List.mem_cons_self _ _)
    rcases List.mem_cons.mp hq with hqa | hq
    · rw [hqa]
      exact Nat.le_trans hself hma
    · rcases List.mem_cons.mp hq with hqb | hq
      · rw [hqb]
        exact Nat.le_trans hself hmb
      · exact ih _ q (List.mem_cons_of_mem _ hq)

/-- The reduce keeps the accumulator only on strict inequality, so the result
is the LAST list element attaining the minimal `createdAt`: everything after
it is strictly younger. -/
lemma reduceOldest_last_min : ∀ (l : List Contact) (a : Contact),
    ∃ l₁ l₂, a :: l = l₁ ++ reduceOldest a l :: l₂ ∧
      ∀ q ∈ l₂, (reduceOldest a l).createdAt < q.createdAt := by
  intro l
  induction l with
  | nil =>
    intro a
    exact ⟨[], [], by simp [reduceOldest], by simp⟩
  | cons b t ih =>
    intro a
    rw [reduceOldest]
    by_cases h : a.createdAt < b.createdAt
    · rw [if_pos h]
      obtain ⟨l₁, l₂, hdec, hstrict⟩ := ih a
      cases l₁ with
      | nil =>
        rw [List.nil_append, List.cons.injEq] at hdec
        rw [← hdec.1] at hstrict ⊢
        refine ⟨[], b :: t, rfl, ?_⟩
        intro q hq
        rcases List.mem_cons.mp hq with hqb | hq
        · rw [hqb]
          exact h
        · exact hstrict q (hdec.2 ▸ hq)
      | cons x l₁x =>
        rw [List.cons_append, List.cons.injEq] at hdec
        refine ⟨a :: b :: l₁x, l₂, ?_, hstrict⟩
        simp only [List.cons_append]
        rw [← hdec.2]
    · rw [if_neg h]
      obtain ⟨l₁, l₂, hdec, hstrict⟩ := ih b
      refine ⟨a :: l₁, l₂, ?_, hstrict⟩
      rw [List.cons_append, ← hdec]

lemma findPrimary_ok_cases {l : List Contact} {s : Store} {R : Contact}
    (h : findPrimaryContact l s = .ok R) :
    R ∈ l.filter (fun c => c.linkPrecedence = LinkPrecedence.primary) ∨
    (R ∈ s.contacts ∧ primaryLookupPred (l.filterMap fun c => c.linkedId) R = true) := by
  unfold findPrimaryContact at h
  cases hf : l.filter (fun c => c.linkPrecedence = LinkPrecedence.primary) with
  | cons p rest =>
    rw [hf] at h
    simp only [Except.ok.injEq] at h
    left
    rw [← h]
    exact reduceOldest_mem rest p
  | nil =>
    rw [hf] at h
    simp only [] at h
    split at h
    · cases h
    · cases hfind : (s.contacts.mergeSort byCreatedAt).find?
        (primaryLookupPred (l.filterMap fun c => c.linkedId)) with
      | some q =>
        rw [hfind] at h
        simp only [Except.ok.injEq] at h
        subst h
        exact Or.inr ⟨List.mem_mergeSort.mp (List.mem_of_find?_eq_some hfind),
          List.find?_some hfind⟩
      | none =>
        rw [hfind] at h
        cases h

lemma findPrimary_ok_props {l : List Contact} {s : Store} {R : Contact}
    (h : findPrimaryContact l s = .ok R)
    (hsub : ∀ c ∈ l, c ∈ s.contacts) (hdel : ∀ c ∈ l, c.deletedAt = none) :
    R ∈ s.contacts ∧ R.linkPrecedence = LinkPrecedence.primary ∧ R.deletedAt = none := by
  rcases findPrimary_ok_cases h with hc | ⟨hmem, hpred⟩
  · rw [List.mem_filter] at hc
    simp only [decide_eq_true_eq] at hc
    exact ⟨hsub R hc.1, hc.2, hdel R hc.1⟩
  · simp only [primaryLookupPred, Bool.and_eq_true, decide_eq_true_eq] at hpred
    exact ⟨hmem, hpred.1.2, hpred.2⟩

/-! ### Branch equations for the pipeline -/

lemma identifyChain_new {d : IdentifyRequest} {s : Store}
    (h : findMatchingContacts (sanitizeInput d).email (sanitizeInput d).phoneNumber s = []) :
    identifyChain d s =
      ((s.create (sanitizeInput d).email (sanitizeInput d).phoneNumber none
          LinkPrecedence.primary).2,
        .ok [(s.create (sanitizeInput d).email (sanitizeInput d).phoneNumber none
          LinkPrecedence.primary).1]) := by
  simp only [identifyChain]
  rw [h]
  simp

lemma identifyChain_existing {d : IdentifyRequest} {s : Store}
    (h : findMatchingContacts (sanitizeInput d).email (sanitizeInput d).phoneNumber s ≠ []) :
    identifyChain d s =
      processExistingChain
        (findMatchingContacts (sanitizeInput d).email (sanitizeInput d).phoneNumber s)
        (sanitizeInput d) s := by
  simp only [identifyChain]
  rw [if_neg (fun hc => h (List.length_eq_zero.mp hc))]

lemma processExisting_create {ms : List Contact} {d : IdentifyRequest} {s : Store}
    {R : Contact} (h : shouldCreateNewContact ms d.email d.phoneNumber = true)
    (hfp : findPrimaryContact ms s = .ok R) :
    processExistingChain ms d s =
      afterCreatePhase ms
        (s.create d.email d.phoneNumber (some R.id) LinkPrecedence.secondary).2 := by
  unfold processExistingChain
  rw [if_pos h, hfp]

lemma processExisting_err {ms : List Contact} {d : IdentifyRequest} {s : Store}
    {msg : String} (h : shouldCreateNewContact ms d.email d.phoneNumber = true)
    (hfp : findPrimaryContact ms s = .error msg) :
    processExistingChain ms d s = (s, .error msg) := by
  unfold processExistingChain
  rw [if_pos h, hfp]

lemma processExisting_nocreate {ms : List Contact} {d : IdentifyRequest} {s : Store}
    (h : shouldCreateNewContact ms d.email d.phoneNumber = false) :
    processExistingChain ms d s = afterCreatePhase ms s := by
  unfold processExistingChain
  rw [if_neg (by simp [h])]

/-! ### Invariant preservation through a whole request -/

lemma afterCreate_fst (ms : List Contact) (s : Store) :
    (afterCreatePhase ms s).1 =
      if (ms.filter fun c => c.linkPrecedence = LinkPrecedence.primary).length > 1 then
        mergePrimaryContacts (ms.filter fun c => c.linkPrecedence = LinkPrecedence.primary) s
      else s := rfl

/-- Well-formedness and the chain invariant survive the merge phase, for a
matched set taken from the store. -/
lemma wf_inv_afterCreate {e p : Option String} {s0 s : Store}
    (hw : WF s) (hi : Inv s)
    (hms : ∀ c ∈ findMatchingContacts e p s0, c ∈ s.contacts)
    (hpw : (findMatchingContacts e p s0).Pairwise storeLe)
    (hdel : ∀ c ∈ findMatchingContacts e p s0, c.deletedAt = none) :
    WF (afterCreatePhase (findMatchingContacts e p s0) s).1 ∧
    Inv (afterCreatePhase (findMatchingContacts e p s0) s).1 := by
  rw [afterCreate_fst]
  split
  · rename_i hlen
    obtain ⟨oldest, newer, hpc⟩ :
        ∃ o n, (findMatchingContacts e p s0).filter
          (fun c => c.linkPrecedence = LinkPrecedence.primary) = o :: n := by
      cases hh : (findMatchingContacts e p s0).filter
          (fun c => c.linkPrecedence = LinkPrecedence.primary) with
      | nil =>
        rw [hh] at hlen
        simp at hlen
      | cons o n => exact ⟨o, n, rfl⟩
    rw [hpc]
    have hple : List.Pairwise storeLe (oldest :: newer) := by
      rw [← hpc]
      exact hpw.filter _
    have hsorted : List.mergeSort (oldest :: newer) byCreatedAt = oldest :: newer :=
      List.mergeSort_of_sorted (hple.imp storeLe_byCreatedAt)
    have hnin : oldest.id ∉ newer.map (fun c => c.id) := by
      intro hin
      obtain ⟨q, hq, hqid⟩ := List.mem_map.mp hin
      have h1 : oldest.id < q.id := ((List.pairwise_cons.mp hple).1 q hq).1
      omega
    rw [mergePrimary_eq_map s hsorted hnin]
    have holdest_f : oldest ∈ (findMatchingContacts e p s0).filter
        (fun c => c.linkPrecedence = LinkPrecedence.primary) := by
      rw [hpc]
      exact List.mem_cons_self _ _
    have holdest_ms : oldest ∈ findMatchingContacts e p s0 :=
      (List.filter_sublist _).subset holdest_f
    have holdest_prim : oldest.linkPrecedence = LinkPrecedence.primary := by
      have := (List.mem_filter.mp holdest_f).2
      simpa using this
    exact ⟨wf_map hw _ (mergeCF_id_eq _ _) (mergeCF_createdAt_eq _ _),
      inv_merge_map hi (hms oldest holdest_ms) (hdel oldest holdest_ms)
        holdest_prim hnin⟩
  · exact ⟨hw, hi⟩

/-- The store returned by `identifyChain` remains well-formed and keeps the
chain invariant. -/
lemma identifyChain_WF_Inv (d : IdentifyRequest) {s : Store} (hw : WF s) (hi : Inv s) :
    WF (identifyChain d s).1 ∧ Inv (identifyChain d s).1 := by
  by_cases h0 : findMatchingContacts (sanitizeInput d).email
      (sanitizeInput d).phoneNumber s = []
  · rw [identifyChain_new h0]
    exact ⟨wf_create hw _ _ _ _,
      inv_create hi _ _ _ _ (fun _ => rfl) (fun hcontra => by cases hcontra)⟩
  · rw [identifyChain_existing h0]
    have hsub : ∀ c ∈ findMatchingContacts (sanitizeInput d).email
        (sanitizeInput d).phoneNumber s, c ∈ s.contacts := fun c hc => matched_mem hc
    have hdel : ∀ c ∈ findMatchingContacts (sanitizeInput d).email
        (sanitizeInput d).phoneNumber s, c.deletedAt = none :=
      fun c hc => matched_not_deleted hc
    have hpw : (findMatchingContacts (sanitizeInput d).email
        (sanitizeInput d).phoneNumber s).Pairwise storeLe := matched_pairwise hw
    by_cases hsc : shouldCreateNewContact
        (findMatchingContacts (sanitizeInput d).email (sanitizeInput d).phoneNumber s)
        (sanitizeInput d).email (sanitizeInput d).phoneNumber = true
    · cases hfp : findPrimaryContact
          (findMatchingContacts (sanitizeInput d).email (sanitizeInput d).phoneNumber s)
          s with
      | error msg =>
        rw [processExisting_err hsc hfp]
        exact ⟨hw, hi⟩
      | ok R =>
        rw [processExisting_create hsc hfp]
        obtain ⟨hRmem, hRprim, hRdel⟩ := findPrimary_ok_props hfp hsub hdel
        refine wf_inv_afterCreate (wf_create hw _ _ _ _)
          (inv_create hi _ _ _ _ (fun hcontra => by cases hcontra)
            (fun _ => ⟨R, hRmem, hRdel, hRprim, rfl⟩)) ?_ hpw hdel
        intro c hc
        rw [create_snd_contacts]
        exact List.mem_append_left _ (hsub c hc)
    · rw [processExisting_nocreate (by simpa using hsc)]
      exact wf_inv_afterCreate hw hi hsub hpw hdel

/-! ### Decision-procedure lemmas -/

lemma jsStrictEq_some_right (x : Option String) (a : String) :
    jsStrictEq x (some a) = decide (x = some a) := by
  cases x with
  | none => simp [jsStrictEq]
  | some v => simp [jsStrictEq]

lemma jsStrictEq_none_right (x : Option String) : jsStrictEq x none = false := by
  cases x <;> rfl

lemma optTruthy_ne_empty {o : Option String} (h : o ≠ some "") :
    optTruthy o = o.isSome := by
  cases o with
  | none => rfl
  | some v =>
    have hv : v ≠ "" := fun hv => h (by rw [hv])
    simp [optTruthy, hv]

/-! ### C10 -/

unseal List.merge List.mergeSort in
/-- C10: invoking `identify` with neither email nor phoneNumber does not
raise an error: the matching query returns the empty set, a primary contact
with both fields absent is created, and the response carries its id with
empty `emails`, `phoneNumbers` and `secondaryContactIds`. -/
theorem c10_empty_request_creates_primary (s : Store) :
    findMatchingContacts (sanitizeInput ⟨none, none⟩).email
        (sanitizeInput ⟨none, none⟩).phoneNumber s = [] ∧
    identify ⟨none, none⟩ s =
      ((s.create none none none LinkPrecedence.primary).2,
        Except.ok ⟨s.nextId, [], [], []⟩) :=
  ⟨rfl, rfl⟩

/-! ### C8 -/

unseal List.merge List.mergeSort in
/-- C8: a request whose normalized fields match no non-deleted contact
creates exactly one new primary contact carrying the input fields, and the
response has that contact's id and empty `secondaryContactIds`. -/
theorem c8_new_identity (d : IdentifyRequest) (s : Store)
    (h : findMatchingContacts (sanitizeInput d).email (sanitizeInput d).phoneNumber s = []) :
    (identify d s).1.contacts = s.contacts ++
      [{ id := s.nextId, email := (sanitizeInput d).email,
         phoneNumber := (sanitizeInput d).phoneNumber, linkedId := none,
         linkPrecedence := LinkPrecedence.primary, createdAt := s.now, deletedAt := none }] ∧
    ∃ resp, (identify d s).2 = Except.ok resp ∧
      resp.primaryContactId = s.nextId ∧ resp.secondaryContactIds = [] := by
  have hchain := identifyChain_new (d := d) (s := s) h
  constructor
  · show (identifyChain d s).1.contacts = _
    rw [hchain]
    rfl
  · refine ⟨⟨s.nextId,
      collectField Contact.email
        [(s.create (sanitizeInput d).email (sanitizeInput d).phoneNumber none
          LinkPrecedence.primary).1],
      collectField Contact.phoneNumber
        [(s.create (sanitizeInput d).email (sanitizeInput d).phoneNumber none
          LinkPrecedence.primary).1], []⟩, ?_, rfl, rfl⟩
    show ((identifyChain d s).2).bind formatResponse = _
    rw [hchain]
    rfl

unseal List.merge List.mergeSort in
theorem c8_witness :
    (identify ⟨none, some "123"⟩ ⟨[], 1, 0⟩).1.contacts =
      ([] : List Contact) ++
      [{ id := 1, email := (sanitizeInput ⟨none, some "123"⟩).email,
         phoneNumber := (sanitizeInput ⟨none, some "123"⟩).phoneNumber, linkedId := none,
         linkPrecedence := LinkPrecedence.primary, createdAt := 0, deletedAt := none }] ∧
    ∃ resp, (identify ⟨none, some "123"⟩ ⟨[], 1, 0⟩).2 = Except.ok resp ∧
      resp.primaryContactId = 1 ∧ resp.secondaryContactIds = [] :=
  c8_new_identity ⟨none, some "123"⟩ ⟨[], 1, 0⟩ (by decide)

/-! ### C4 -/

/-- C4: starting from any well-formed store satisfying the chain invariant
(each non-deleted chain has exactly one primary; every non-deleted
secondary's `linkedId` points directly at a non-deleted primary, never at a
secondary), every identify request preserves the invariant — also when the
request ends in an error, since writes are not transactional. -/
theorem c4_invariant_preserved (d : IdentifyRequest) {s : Store}
    (hw : WF s) (hi : Inv s) : Inv (identify d s).1 :=
  (identifyChain_WF_Inv d hw hi).2

unseal List.merge List.mergeSort in
theorem c4_witness :
    Inv (identify ⟨none, some "111"⟩
      ⟨[{ id := 1, email := some "a@b.co", phoneNumber := some "111", linkedId := none, linkPrecedence := LinkPrecedence.primary, createdAt := 0, deletedAt := none }], 2, 1⟩).1 :=
  c4_invariant_preserved _ (by decide) (by decide)

/-! ### C2 -/

/-- C2 counterexample: two primaries with identical `createdAt`; the claim
says the one with the smallest id (1) should be resolved, but the `reduce`
keeps the accumulator only on strict inequality, so the later/larger-id
primary (2) is returned. -/
theorem c2_tie_counterexample :
    findPrimaryContact
        [{ id := 1, email := some "a@x.co", phoneNumber := some "111", linkedId := none, linkPrecedence := LinkPrecedence.primary, createdAt := 5, deletedAt := none },
         { id := 2, email := some "b@x.co", phoneNumber := some "222", linkedId := none, linkPrecedence := LinkPrecedence.primary, createdAt := 5, deletedAt := none }]
        ⟨[], 3, 6⟩ =
      Except.ok { id := 2, email := some "b@x.co", phoneNumber := some "222", linkedId := none, linkPrecedence := LinkPrecedence.primary, createdAt := 5, deletedAt := none } := by
  decide

/-- C2 (amended): for every list containing at least one primary,
`findPrimaryContact` returns a primary whose `createdAt` is minimal among
the primaries of the list; when several primaries share that minimal
`createdAt` it returns the LAST of them in list order (the largest id for a
store-ordered list), not the one with the smallest id. -/
theorem c2_earliest_primary_resolution (contacts : List Contact) (s : Store)
    (h : ∃ c ∈ contacts, c.linkPrecedence = LinkPrecedence.primary) :
    ∃ p l₁ l₂,
      findPrimaryContact contacts s = Except.ok p ∧
      p.linkPrecedence = LinkPrecedence.primary ∧
      (∀ q ∈ contacts, q.linkPrecedence = LinkPrecedence.primary →
        p.createdAt ≤ q.createdAt) ∧
      contacts.filter (fun c => c.linkPrecedence = LinkPrecedence.primary) = l₁ ++ p :: l₂ ∧
      (∀ q ∈ l₂, p.createdAt < q.createdAt) := by
  obtain ⟨c0, hc0, hc0p⟩ := h
  cases hf : contacts.filter (fun c => c.linkPrecedence = LinkPrecedence.primary) with
  | nil =>
    exfalso
    have hm : c0 ∈ contacts.filter (fun c => c.linkPrecedence = LinkPrecedence.primary) :=
      List.mem_filter.mpr ⟨hc0, by simpa using hc0p⟩
    rw [hf] at hm
    cases hm
  | cons p0 rest =>
    have hok : findPrimaryContact contacts s = .ok (reduceOldest p0 rest) := by
      simp only [findPrimaryContact]
      rw [hf]
    obtain ⟨l₁, l₂, hdec, hstrict⟩ := reduceOldest_last_min rest p0
    have hmem : reduceOldest p0 rest ∈ p0 :: rest := reduceOldest_mem rest p0
    have hmemf : reduceOldest p0 rest ∈ contacts.filter
        (fun c => c.linkPrecedence = LinkPrecedence.primary) := by
      rw [hf]
      exact hmem
    refine ⟨reduceOldest p0 rest, l₁, l₂, hok, ?_, ?_, hdec, hstrict⟩
    · have := (List.mem_filter.mp hmemf).2
      simpa using this
    · intro q hq hqp
      have hqf : q ∈ p0 :: rest := by
        rw [← hf]
        exact List.mem_filter.mpr ⟨hq, by simpa using hqp⟩
      exact reduceOldest_min rest p0 q hqf

theorem c2_witness :
    ∃ p l₁ l₂,
      findPrimaryContact
        [{ id := 1, email := some "a@x.co", phoneNumber := some "111", linkedId := none, linkPrecedence := LinkPrecedence.secondary, createdAt := 0, deletedAt := none },
         { id := 2, email := some "b@x.co", phoneNumber := some "222", linkedId := none, linkPrecedence := LinkPrecedence.primary, createdAt := 3, deletedAt := none },
         { id := 3, email := some "c@x.co", phoneNumber := some "333", linkedId := none, linkPrecedence := LinkPrecedence.primary, createdAt := 2, deletedAt := none }]
        ⟨[], 4, 4⟩ = Except.ok p ∧
      p.linkPrecedence = LinkPrecedence.primary ∧
      (∀ q ∈ ([{ id := 1, email := some "a@x.co", phoneNumber := some "111", linkedId := none, linkPrecedence := LinkPrecedence.secondary, createdAt := 0, deletedAt := none },
              { id := 2, email := some "b@x.co", phoneNumber := some "222", linkedId := none, linkPrecedence := LinkPrecedence.primary, createdAt := 3, deletedAt := none },
              { id := 3, email := some "c@x.co", phoneNumber := some "333", linkedId := none, linkPrecedence := LinkPrecedence.primary, createdAt := 2, deletedAt := none }] : List Contact),
        q.linkPrecedence = LinkPrecedence.primary → p.createdAt ≤ q.createdAt) ∧
      ([{ id := 1, email := some "a@x.co", phoneNumber := some "111", linkedId := none, linkPrecedence := LinkPrecedence.secondary, createdAt := 0, deletedAt := none },
       { id := 2, email := some "b@x.co", phoneNumber := some "222", linkedId := none, linkPrecedence := LinkPrecedence.primary, createdAt := 3, deletedAt := none },
       { id := 3, email := some "c@x.co", phoneNumber := some "333", linkedId := none, linkPrecedence := LinkPrecedence.primary, createdAt := 2, deletedAt := none }] : List Contact).filter
        (fun c => c.linkPrecedence = LinkPrecedence.primary) = l₁ ++ p :: l₂ ∧
      (∀ q ∈ l₂, p.createdAt < q.createdAt) :=
  c2_earliest_primary_resolution _ ⟨[], 4, 4⟩
    ⟨{ id := 2, email := some "b@x.co", phoneNumber := some "222", linkedId := none, linkPrecedence := LinkPrecedence.primary, createdAt := 3, deletedAt := none },
      by decide, by decide⟩

/-! ### C3 -/

/-- C3: the new-record decision procedure agrees with the spec §4.3 policy,
evaluated in order, on every matching set and every normalized input
(normalization never produces an empty-string field): no row on an exact
(email, phoneNumber) match including absent fields; else a row when both
fields are supplied; else, for a single supplied field, a row exactly when
no matched contact already has that value. -/
theorem c3_new_record_policy_equiv (ms : List Contact) (e p : Option String)
    (he : e ≠ some "") (hp : p ≠ some "") :
    shouldCreateNewContact ms e p = specNewRecordPolicy ms e p := by
  cases e with
  | some a =>
    have ha : a ≠ "" := fun hv => he (by rw [hv])
    cases p with
    | some b =>
      have hb : b ≠ "" := fun hv => hp (by rw [hv])
      have hex : (ms.any fun c =>
          jsStrictEq c.email (some a) && jsStrictEq c.phoneNumber (some b))
          = (ms.any fun c => decide (c.email = some a ∧ c.phoneNumber = some b)) := by
        congr 1
        funext c
        rw [jsStrictEq_some_right, jsStrictEq_some_right]
        simp
      simp only [shouldCreateNewContact, specNewRecordPolicy]
      rw [hex]
      simp [optTruthy, ha, hb]
    | none =>
      have hex0 : (ms.any fun c =>
          jsStrictEq c.email (some a) && jsStrictEq c.phoneNumber none) = false :=
        List.any_eq_false.mpr fun c _ => by simp [jsStrictEq_none_right]
      have hjs : (ms.any fun c => jsStrictEq c.email (some a))
          = (ms.any fun c => decide (c.email = some a)) := by
        congr 1
        funext c
        rw [jsStrictEq_some_right]
      simp only [shouldCreateNewContact, specNewRecordPolicy]
      rw [hex0, hjs]
      by_cases hspec : (ms.any fun c => decide (c.email = some a ∧ c.phoneNumber = none)) = true
      · have hany : (ms.any fun c => decide (c.email = some a)) = true := by
          obtain ⟨c, hc, hcp⟩ := List.any_eq_true.mp hspec
          simp only [decide_eq_true_eq] at hcp
          exact List.any_eq_true.mpr ⟨c, hc, by simp [hcp.1]⟩
        simp [optTruthy, ha, hspec, hany]
      · rw [Bool.not_eq_true] at hspec
        simp only [optTruthy, ha, hspec]
        simp [ha]
  | none =>
    cases p with
    | some b =>
      have hb : b ≠ "" := fun hv => hp (by rw [hv])
      have hex0 : (ms.any fun c =>
          jsStrictEq c.email none && jsStrictEq c.phoneNumber (some b)) = false :=
        List.any_eq_false.mpr fun c _ => by simp [jsStrictEq_none_right]
      have hjs : (ms.any fun c => jsStrictEq c.phoneNumber (some b))
          = (ms.any fun c => decide (c.phoneNumber = some b)) := by
        congr 1
        funext c
        rw [jsStrictEq_some_right]
      simp only [shouldCreateNewContact, specNewRecordPolicy]
      rw [hex0, hjs]
      by_cases hspec : (ms.any fun c => decide (c.email = none ∧ c.phoneNumber = some b)) = true
      · have hany : (ms.any fun c => decide (c.phoneNumber = some b)) = true := by
          obtain ⟨c, hc, hcp⟩ := List.any_eq_true.mp hspec
          simp only [decide_eq_true_eq] at hcp
          exact List.any_eq_true.mpr ⟨c, hc, by simp [hcp.2]⟩
        simp [optTruthy, hb, hspec, hany]
      · rw [Bool.not_eq_true] at hspec
        simp only [optTruthy, hb, hspec]
        simp [hb]
    | none =>
      have hex0 : (ms.any fun c =>
          jsStrictEq c.email none && jsStrictEq c.phoneNumber none) = false :=
        List.any_eq_false.mpr fun c _ => by simp [jsStrictEq_none_right]
      simp only [shouldCreateNewContact, specNewRecordPolicy]
      rw [hex0]
      cases hspec : (ms.any fun c => decide (c.email = none ∧ c.phoneNumber = none)) <;>
        simp [optTruthy, hspec]

theorem c3_witness :
    (some "a@b.co" : Option String) ≠ some "" ∧
    (some "111" : Option String) ≠ some "" ∧
    shouldCreateNewContact
        [{ id := 1, email := some "a@b.co", phoneNumber := some "222", linkedId := none, linkPrecedence := LinkPrecedence.primary, createdAt := 0, deletedAt := none }]
        (some "a@b.co") (some "111") =
      specNewRecordPolicy
        [{ id := 1, email := some "a@b.co", phoneNumber := some "222", linkedId := none, linkPrecedence := LinkPrecedence.primary, createdAt := 0, deletedAt := none }]
        (some "a@b.co") (some "111") :=
  ⟨by decide, by decide,
    c3_new_record_policy_equiv _ (some "a@b.co") (some "111") (by decide) (by decide)⟩

/-! ### C5: response assembly -/

lemma collect_fold_general (f : Contact → Option String) :
    ∀ (l : List Contact) (acc : List String),
    l.foldl (fun acc c =>
      match f c with
      | some v => if v = "" then acc else addUnique acc v
      | none => acc) acc
      = (truthyValues f l).foldl addUnique acc := by
  intro l
  induction l with
  | nil =>
    intro acc
    rfl
  | cons c t ih =>
    intro acc
    rw [List.foldl_cons]
    cases hf : f c with
    | none =>
      rw [show truthyValues f (c :: t) = truthyValues f t from by
        unfold truthyValues
        rw [List.filterMap_cons, hf]]
      exact ih acc
    | some v =>
      by_cases hv : v = ""
      · subst hv
        rw [show truthyValues f (c :: t) = truthyValues f t from by
          unfold truthyValues
          rw [List.filterMap_cons, hf]
          rfl]
        exact ih acc
      · rw [show truthyValues f (c :: t) = v :: truthyValues f t from by
          unfold truthyValues
          rw [List.filterMap_cons, hf]
          simp [hv]]
        rw [List.foldl_cons]
        show List.foldl _ (if v = "" then acc else addUnique acc v) t = _
        rw [if_neg hv]
        exact ih (addUnique acc v)

lemma foldl_addUnique : ∀ (vs : List String) (acc : List String),
    vs.foldl addUnique acc = acc ++ uniqueInOrder (vs.filter fun v => v ∉ acc) := by
  intro vs
  induction vs with
  | nil =>
    intro acc
    simp [uniqueInOrder]
  | cons v rest ih =>
    intro acc
    rw [List.foldl_cons]
    by_cases hv : v ∈ acc
    · rw [show addUnique acc v = acc from by unfold addUnique; rw [if_pos hv]]
      rw [List.filter_cons, if_neg (by simp [hv])]
      exact ih acc
    · rw [show addUnique acc v = acc ++ [v] from by unfold addUnique; rw [if_neg hv]]
      rw [ih (acc ++ [v])]
      rw [List.filter_cons, if_pos (by simp [hv])]
      have hfe : (rest.filter fun w => w ∉ acc ++ [v]) =
          ((rest.filter fun w => w ∉ acc).filter fun w => w ≠ v) := by
        rw [List.filter_filter]
        refine List.filter_congr fun a _ => ?_
        rw [← Bool.decide_and, decide_eq_decide]
        simp only [List.mem_append, List.mem_singleton, not_or]
        constructor
        · intro h
          exact ⟨h.2, h.1⟩
        · intro h
          exact ⟨h.2, h.1⟩
      rw [hfe]
      rw [show uniqueInOrder (v :: (rest.filter fun w => w ∉ acc)) =
          v :: uniqueInOrder ((rest.filter fun w => w ∉ acc).filter fun w => w ≠ v)
        from by rw [uniqueInOrder]]
      rw [List.append_assoc, List.singleton_append]

/-- The `Set`-based field collection of `formatResponse` computes the
first-occurrence deduplication of the truthy field values, in order. -/
lemma collectField_eq_unique (f : Contact → Option String) (l : List Contact) :
    collectField f l = uniqueInOrder (truthyValues f l) := by
  unfold collectField
  rw [collect_fold_general, foldl_addUnique]
  rw [show ((truthyValues f l).filter fun v => v ∉ ([] : List String))
      = truthyValues f l from by
    rw [show (fun v => decide (v ∉ ([] : List String))) = fun v => true from by
      funext v
      simp]
    exact List.filter_true _]
  rfl

/-- C5: for a final chain listed primary-first with its non-deleted
secondaries in `createdAt` order, the assembled response has the primary's
id; `emails`/`phoneNumbers` are the unique truthy values in enumeration
order (primary first, then secondaries, skipping empties and duplicates);
`secondaryContactIds` holds every secondary's id sorted ascending. -/
theorem c5_response_assembly (P : Contact) (rest : List Contact)
    (hP : P.linkPrecedence = LinkPrecedence.primary)
    (hrest : ∀ c ∈ rest, c.linkPrecedence = LinkPrecedence.secondary)
    (_hord : (P :: rest).Pairwise (fun a b => a.createdAt ≤ b.createdAt)) :
    ∃ r, formatResponse (P :: rest) = Except.ok r ∧
      r.primaryContactId = P.id ∧
      r.emails = uniqueInOrder (truthyValues Contact.email (P :: rest)) ∧
      r.phoneNumbers = uniqueInOrder (truthyValues Contact.phoneNumber (P :: rest)) ∧
      r.secondaryContactIds.Perm (rest.map fun c => c.id) ∧
      r.secondaryContactIds.Pairwise (fun a b => a ≤ b) := by
  have hfind : (P :: rest).find?
      (fun c => c.linkPrecedence = LinkPrecedence.primary) = some P := by
    rw [List.find?_cons]
    simp [hP]
  have hfilt : (P :: rest).filter
      (fun c => c.linkPrecedence = LinkPrecedence.secondary) = rest := by
    rw [List.filter_cons, if_neg (by simp [hP])]
    exact List.filter_eq_self.mpr fun a ha => by simp [hrest a ha]
  unfold formatResponse
  rw [hfind]
  refine ⟨_, rfl, rfl, collectField_eq_unique _ _, collectField_eq_unique _ _, ?_, ?_⟩
  · rw [hfilt]
    exact List.mergeSort_perm _ _
  · exact (List.sorted_mergeSort
      (fun a b c h1 h2 => by simp at h1 h2 ⊢; omega)
      (fun a b => by simp; omega) _).imp fun h => by simpa using h

theorem c5_witness :
    ∃ r, formatResponse
        [{ id := 1, email := some "a@x.co", phoneNumber := some "111", linkedId := none, linkPrecedence := LinkPrecedence.primary, createdAt := 0, deletedAt := none },
         { id := 3, email := some "b@x.co", phoneNumber := some "111", linkedId := some 1, linkPrecedence := LinkPrecedence.secondary, createdAt := 1, deletedAt := none },
         { id := 2, email := none, phoneNumber := some "222", linkedId := some 1, linkPrecedence := LinkPrecedence.secondary, createdAt := 2, deletedAt := none }]
        = Except.ok r ∧
      r.primaryContactId = 1 ∧
      r.emails = uniqueInOrder (truthyValues Contact.email
        [{ id := 1, email := some "a@x.co", phoneNumber := some "111", linkedId := none, linkPrecedence := LinkPrecedence.primary, createdAt := 0, deletedAt := none },
         { id := 3, email := some "b@x.co", phoneNumber := some "111", linkedId := some 1, linkPrecedence := LinkPrecedence.secondary, createdAt := 1, deletedAt := none },
         { id := 2, email := none, phoneNumber := some "222", linkedId := some 1, linkPrecedence := LinkPrecedence.secondary, createdAt := 2, deletedAt := none }]) ∧
      r.phoneNumbers = uniqueInOrder (truthyValues Contact.phoneNumber
        [{ id := 1, email := some "a@x.co", phoneNumber := some "111", linkedId := none, linkPrecedence := LinkPrecedence.primary, createdAt := 0, deletedAt := none },
         { id := 3, email := some "b@x.co", phoneNumber := some "111", linkedId := some 1, linkPrecedence := LinkPrecedence.secondary, createdAt := 1, deletedAt := none },
         { id := 2, email := none, phoneNumber := some "222", linkedId := some 1, linkPrecedence := LinkPrecedence.secondary, createdAt := 2, deletedAt := none }]) ∧
      r.secondaryContactIds.Perm
        (([{ id := 3, email := some "b@x.co", phoneNumber := some "111", linkedId := some 1, linkPrecedence := LinkPrecedence.secondary, createdAt := 1, deletedAt := none },
          { id := 2, email := none, phoneNumber := some "222", linkedId := some 1, linkPrecedence := LinkPrecedence.secondary, createdAt := 2, deletedAt := none }] : List Contact).map fun c => c.id) ∧
      r.secondaryContactIds.Pairwise (fun a b => a ≤ b) :=
  c5_response_assembly _ _ (by decide) (by decide) (by decide)

/-! ### C9: input normalization -/

unseal List.merge List.mergeSort in
/-- C9 counterexample: the phones "abc" and "" differ only in non-digit
characters (they agree after stripping non-digits), yet the two requests do
not perform the same writes: `phoneNumber ? ... : undefined` treats the
empty string as absent, while "abc" is truthy and is stored as the empty
string after stripping.  The resulting stores differ. -/
theorem c9_empty_phone_counterexample :
    ("abc".toList.filter Char.isDigit = "".toList.filter Char.isDigit) ∧
    (identify ⟨none, some "abc"⟩ ⟨[], 1, 0⟩).1 ≠ (identify ⟨none, some ""⟩ ⟨[], 1, 0⟩).1 := by
  decide

/-- C9 (amended): the engine normalizes its own input before any store
access; two raw requests whose emails agree after trimming and lowercasing
and whose phones agree after stripping non-digits — and are both empty or
both non-empty as raw strings, since the empty raw phone is treated as
absent before normalization — drive `identify` identically: same store
reads and writes and same response. -/
theorem c9_normalization_invariance (s : Store) (d₁ d₂ : IdentifyRequest)
    (he : d₁.email.map (fun e => e.trim.toLower) = d₂.email.map (fun e => e.trim.toLower))
    (hp : d₁.phoneNumber.map (fun p => p.toList.filter Char.isDigit)
        = d₂.phoneNumber.map (fun p => p.toList.filter Char.isDigit))
    (hpe : d₁.phoneNumber = some "" ↔ d₂.phoneNumber = some "") :
    identify d₁ s = identify d₂ s := by
  have hsan : sanitizeInput d₁ = sanitizeInput d₂ := by
    unfold sanitizeInput
    have hphone : (match d₁.phoneNumber with
        | some p => if p = "" then none
            else some (String.mk (p.toList.filter Char.isDigit))
        | none => none)
        = (match d₂.phoneNumber with
        | some p => if p = "" then none
            else some (String.mk (p.toList.filter Char.isDigit))
        | none => none) := by
      cases h1 : d₁.phoneNumber with
      | none =>
        cases h2 : d₂.phoneNumber with
        | none => rfl
        | some q =>
          rw [h1, h2] at hp
          cases hp
      | some p =>
        cases h2 : d₂.phoneNumber with
        | none =>
          rw [h1, h2] at hp
          cases hp
        | some q =>
          rw [h1, h2] at hp
          rw [h1, h2] at hpe
          have hp2 : p.toList.filter Char.isDigit = q.toList.filter Char.isDigit := by
            simpa using hp
          by_cases hpz : p = ""
          · have hqz : q = "" := by
              have := hpe.mp (by rw [hpz])
              simpa using this
            subst hpz
            subst hqz
            rfl
          · have hqz : q ≠ "" := fun hq => hpz (by
              have := hpe.mpr (by rw [hq])
              simpa using this)
            show (if p = "" then none
                else some (String.mk (p.toList.filter Char.isDigit)))
              = (if q = "" then none
                else some (String.mk (q.toList.filter Char.isDigit)))
            rw [if_neg hpz, if_neg hqz, hp2]
    rw [he, hphone]
  have hch : identifyChain d₁ s = identifyChain d₂ s := by
    unfold identifyChain
    rw [hsan]
  unfold identify
  rw [hch]

unseal List.merge List.mergeSort in
theorem c9_witness :
    identify ⟨none, some "+1 (55)"⟩ ⟨[], 1, 0⟩ = identify ⟨none, some "155"⟩ ⟨[], 1, 0⟩ :=
  c9_normalization_invariance ⟨[], 1, 0⟩ ⟨none, some "+1 (55)"⟩ ⟨none, some "155"⟩
    (by decide) (by decide) (by decide)

/-! ### C7: error characterization -/

lemma bind_isErr {α β : Type} (x : Except String α) (f : α → Except String β) :
    isErr (x.bind f) ↔ (isErr x ∨ ∃ a, x = .ok a ∧ isErr (f a)) := by
  cases x with
  | error msg => simp [isErr, Except.bind]
  | ok a =>
    simp only [Except.bind]
    constructor
    · intro h
      exact Or.inr ⟨a, rfl, h⟩
    · intro h
      rcases h with h | ⟨b, hb, hfb⟩
      · cases h
      · cases hb
        exact hfb

lemma formatResponse_err_iff (chain : List Contact) :
    isErr (formatResponse chain) ↔
      ∀ c ∈ chain, c.linkPrecedence ≠ LinkPrecedence.primary := by
  unfold formatResponse
  cases hf : chain.find? (fun c => c.linkPrecedence = LinkPrecedence.primary) with
  | none =>
    simp only [isErr]
    constructor
    · intro _ c hc
      have := List.find?_eq_none.mp hf c hc
      simpa using this
    · intro _
      trivial
  | some P =>
    simp only [isErr]
    constructor
    · intro h
      cases h
    · intro hall
      have hP : P.linkPrecedence = LinkPrecedence.primary := by
        have := List.find?_some hf
        simpa using this
      exact absurd hP (hall P (List.mem_of_find?_eq_some hf))

lemma findPrimary_err_iff (l : List Contact) (s : Store) :
    isErr (findPrimaryContact l s) ↔
      (l.filter (fun c => c.linkPrecedence = LinkPrecedence.primary) = [] ∧
       ¬∃ pc ∈ s.contacts, pc.deletedAt = none ∧
         pc.linkPrecedence = LinkPrecedence.primary ∧
         pc.id ∈ l.filterMap (fun c => c.linkedId)) := by
  simp only [findPrimaryContact]
  cases hf : l.filter (fun c => c.linkPrecedence = LinkPrecedence.primary) with
  | cons p rest =>
    simp [isErr]
  | nil =>
    simp only [true_and]
    split
    · rename_i hlen
      have hnil : l.filterMap (fun c => c.linkedId) = [] := List.length_eq_zero.mp hlen
      simp only [isErr, hnil]
      constructor
      · rintro _
        rintro ⟨pc, _, _, _, hmem⟩
        cases hmem
      · intro _
        trivial
    · cases hfind : (s.contacts.mergeSort byCreatedAt).find?
          (primaryLookupPred (l.filterMap fun c => c.linkedId)) with
      | some pc =>
        simp only [isErr]
        constructor
        · intro h
          cases h
        · intro hne
          refine absurd ?_ hne
          have hpred := List.find?_some hfind
          have hmem := List.mem_mergeSort.mp (List.mem_of_find?_eq_some hfind)
          simp only [primaryLookupPred, Bool.and_eq_true, decide_eq_true_eq] at hpred
          exact ⟨pc, hmem, hpred.2, hpred.1.2, List.elem_iff.mp hpred.1.1⟩
      | none =>
        simp only [isErr]
        constructor
        · rintro _ ⟨pc, hmem, hdel, hprim, hid⟩
          have := List.find?_eq_none.mp hfind pc (List.mem_mergeSort.mpr hmem)
          refine this ?_
          simp only [primaryLookupPred, Bool.and_eq_true, decide_eq_true_eq]
          exact ⟨⟨List.elem_iff.mpr hid, hprim⟩, hdel⟩
        · intro _
          trivial

lemma afterCreate_snd (ms : List Contact) (s : Store) :
    (afterCreatePhase ms s).2 = getAllContactsInChain ms (afterCreatePhase ms s).1 := rfl

lemma getAll_err_iff (l : List Contact) (s : Store) :
    isErr (getAllContactsInChain l s) ↔ isErr (findPrimaryContact l s) := by
  unfold getAllContactsInChain
  cases h : findPrimaryContact l s with
  | error msg => simp [isErr, Except.map]
  | ok R => simp [isErr, Except.map]

/-- The chain phase of a request errors exactly when the primary resolution
of the original matching set against the original store errors: the second
resolution (after the optional create and merge) can never fail if the first
one succeeded. -/
lemma identifyChain_err_iff (d : IdentifyRequest) (s : Store) :
    isErr (identifyChain d s).2 ↔
      (findMatchingContacts (sanitizeInput d).email (sanitizeInput d).phoneNumber s ≠ [] ∧
       isErr (findPrimaryContact
         (findMatchingContacts (sanitizeInput d).email (sanitizeInput d).phoneNumber s) s)) := by
  by_cases h0 : findMatchingContacts (sanitizeInput d).email
      (sanitizeInput d).phoneNumber s = []
  · rw [identifyChain_new h0]
    simp [isErr, h0]
  · rw [identifyChain_existing h0]
    by_cases hsc : shouldCreateNewContact
        (findMatchingContacts (sanitizeInput d).email (sanitizeInput d).phoneNumber s)
        (sanitizeInput d).email (sanitizeInput d).phoneNumber = true
    · cases hfp : findPrimaryContact
          (findMatchingContacts (sanitizeInput d).email (sanitizeInput d).phoneNumber s)
          s with
      | error msg =>
        rw [processExisting_err hsc hfp]
        simp [isErr, h0, hfp]
      | ok R =>
        rw [processExisting_create hsc hfp]
        rw [afterCreate_snd, getAll_err_iff, findPrimary_err_iff]
        rw [afterCreate_fst]
        have hnoterr : ¬ isErr (findPrimaryContact
            (findMatchingContacts (sanitizeInput d).email (sanitizeInput d).phoneNumber s)
            s) := by
          rw [hfp]
          intro h
          cases h
        rw [findPrimary_err_iff] at hnoterr
        constructor
        · rintro ⟨hfil, hnex⟩
          exfalso
          rw [hfil] at hnoterr
          refine hnex ?_
          have hex : ∃ pc ∈ s.contacts, pc.deletedAt = none ∧
              pc.linkPrecedence = LinkPrecedence.primary ∧
              pc.id ∈ (findMatchingContacts (sanitizeInput d).email
                (sanitizeInput d).phoneNumber s).filterMap (fun c => c.linkedId) := by
            by_contra hne
            exact hnoterr ⟨rfl, hne⟩
          obtain ⟨pc, hmem, hdel, hprim, hid⟩ := hex
          have hs2 : (if ((findMatchingContacts (sanitizeInput d).email
                (sanitizeInput d).phoneNumber s).filter
                (fun c => c.linkPrecedence = LinkPrecedence.primary)).length > 1 then
              mergePrimaryContacts ((findMatchingContacts (sanitizeInput d).email
                (sanitizeInput d).phoneNumber s).filter
                (fun c => c.linkPrecedence = LinkPrecedence.primary))
                (s.create (sanitizeInput d).email (sanitizeInput d).phoneNumber
                  (some R.id) LinkPrecedence.secondary).2
            else (s.create (sanitizeInput d).email (sanitizeInput d).phoneNumber
                  (some R.id) LinkPrecedence.secondary).2) =
              (s.create (sanitizeInput d).email (sanitizeInput d).phoneNumber
                  (some R.id) LinkPrecedence.secondary).2 := by
            rw [hfil]
            simp
          rw [hs2]
          exact ⟨pc, by rw [create_snd_contacts]; exact List.mem_append_left _ hmem,
            hdel, hprim, hid⟩
        · rintro ⟨_, herr⟩
          exact herr.elim
    · have hsc2 : shouldCreateNewContact
          (findMatchingContacts (sanitizeInput d).email (sanitizeInput d).phoneNumber s)
          (sanitizeInput d).email (sanitizeInput d).phoneNumber = false := by
        simpa using hsc
      rw [processExisting_nocreate hsc2]
      rw [afterCreate_snd, getAll_err_iff, findPrimary_err_iff, afterCreate_fst]
      rw [findPrimary_err_iff]
      by_cases hfil : (findMatchingContacts (sanitizeInput d).email
          (sanitizeInput d).phoneNumber s).filter
          (fun c => c.linkPrecedence = LinkPrecedence.primary) = []
      · rw [if_neg (by rw [hfil]; simp)]
        simp [h0]
      · simp [hfil, h0]

lemma prec_secondary_iff (x : LinkPrecedence) :
    x ≠ LinkPrecedence.primary ↔ x = LinkPrecedence.secondary := by
  cases x <;> simp

lemma filter_primary_nil_iff (l : List Contact) :
    l.filter (fun c => c.linkPrecedence = LinkPrecedence.primary) = [] ↔
      ∀ c ∈ l, c.linkPrecedence = LinkPrecedence.secondary := by
  rw [List.filter_eq_nil_iff]
  constructor
  · intro h c hc
    have := h c hc
    rw [← prec_secondary_iff]
    simpa using this
  · intro h c hc
    simp [h c hc]

/-- C7: an identify request ends in an internal data-integrity error exactly
when either the matching set is non-empty, consists only of secondaries, and
no non-deleted primary exists in the store among their collected `linkedId`
values, or the chain assembled for the response contains no primary
contact. -/
theorem c7_error_iff_integrity (s : Store) (d : IdentifyRequest) :
    isErr (identify d s).2 ↔
      ((findMatchingContacts (sanitizeInput d).email (sanitizeInput d).phoneNumber s ≠ [] ∧
        (∀ c ∈ findMatchingContacts (sanitizeInput d).email (sanitizeInput d).phoneNumber s,
          c.linkPrecedence = LinkPrecedence.secondary) ∧
        ¬∃ pc ∈ s.contacts, pc.deletedAt = none ∧
          pc.linkPrecedence = LinkPrecedence.primary ∧
          pc.id ∈ (findMatchingContacts (sanitizeInput d).email
            (sanitizeInput d).phoneNumber s).filterMap (fun c => c.linkedId)) ∨
       (∃ chain, (identifyChain d s).2 = Except.ok chain ∧
         ∀ c ∈ chain, c.linkPrecedence ≠ LinkPrecedence.primary)) := by
  rw [show (identify d s).2 = ((identifyChain d s).2).bind formatResponse from rfl]
  rw [bind_isErr]
  refine or_congr ?_ ?_
  · rw [identifyChain_err_iff, findPrimary_err_iff, filter_primary_nil_iff]
  · exact exists_congr fun a =>
      and_congr_right fun _ => formatResponse_err_iff a

/-! ### C1: chain merge -/

lemma findPrimary_ok_of_prims {l : List Contact} {s : Store} {p0 : Contact}
    {rest : List Contact}
    (h : l.filter (fun c => c.linkPrecedence = LinkPrecedence.primary) = p0 :: rest) :
    findPrimaryContact l s = .ok (reduceOldest p0 rest) := by
  simp only [findPrimaryContact]
  rw [h]

/-- Row-level consequences of a merge: the survivor's row is untouched, each
newer primary's row is demoted and re-pointed at the survivor, and every
non-deleted row linked to a newer primary is re-pointed at the survivor. -/
lemma merge_map_conclusions {s1 : Store} {prims newer : List Contact} {oldest : Contact}
    (hpc : prims = oldest :: newer)
    (hple : prims.Pairwise storeLe)
    (holdlink : oldest.linkedId = none)
    (hrows : ∀ q ∈ prims, q ∈ s1.contacts) :
    oldest ∈ (mergePrimaryContacts prims s1).contacts ∧
    (∀ q ∈ newer,
      { q with linkPrecedence := LinkPrecedence.secondary, linkedId := some oldest.id }
        ∈ (mergePrimaryContacts prims s1).contacts) ∧
    (∀ c ∈ s1.contacts, c.deletedAt = none → (∃ q ∈ newer, c.linkedId = some q.id) →
      ∃ c' ∈ (mergePrimaryContacts prims s1).contacts,
        c'.id = c.id ∧ c'.linkedId = some oldest.id) := by
  have hple2 : List.Pairwise storeLe (oldest :: newer) := hpc ▸ hple
  have hnin : oldest.id ∉ newer.map (fun c => c.id) := by
    intro hin
    obtain ⟨q, hq, hqid⟩ := List.mem_map.mp hin
    have h1 : oldest.id < q.id := ((List.pairwise_cons.mp hple2).1 q hq).1
    omega
  have hsort : prims.mergeSort byCreatedAt = oldest :: newer := by
    rw [hpc]
    exact List.mergeSort_of_sorted (hple2.imp storeLe_byCreatedAt)
  have hmap := mergePrimary_eq_map s1 hsort hnin
  have holdfix : mergeCF oldest.id (newer.map fun c => c.id) oldest = oldest := by
    refine mergeCF_skip hnin ?_
    rintro ⟨_, x, _, hx⟩
    rw [holdlink] at hx
    cases hx
  refine ⟨?_, ?_, ?_⟩
  · rw [hmap]
    exact List.mem_map.mpr ⟨oldest, hrows oldest (hpc ▸ List.mem_cons_self _ _), holdfix⟩
  · intro q hq
    rw [hmap]
    have hqmem : q ∈ s1.contacts := hrows q (hpc ▸ List.mem_cons_of_mem _ hq)
    have hqid : q.id ∈ newer.map (fun c => c.id) := List.mem_map.mpr ⟨q, hq, rfl⟩
    exact List.mem_map.mpr ⟨q, hqmem, mergeCF_demote hqid⟩
  · intro c hc hdel hlink
    rw [hmap]
    by_cases hcid : c.id ∈ newer.map (fun c => c.id)
    · exact ⟨{ c with linkPrecedence := LinkPrecedence.secondary, linkedId := some oldest.id },
        List.mem_map.mpr ⟨c, hc, mergeCF_demote hcid⟩, rfl, rfl⟩
    · obtain ⟨q, hq, hql⟩ := hlink
      have hrep : c.deletedAt = none ∧
          ∃ a ∈ newer.map (fun c => c.id), c.linkedId = some a :=
        ⟨hdel, q.id, List.mem_map.mpr ⟨q, hq, rfl⟩, hql⟩
      exact ⟨{ c with linkedId := some oldest.id },
        List.mem_map.mpr ⟨c, hc, mergeCF_repoint hcid hrep⟩, rfl, rfl⟩

/-- C1 (amended): when the matching set holds more than one primary, the
earliest-created matched primary (smallest id on ties) survives as the sole
primary: every other matched primary is demoted to secondary pointing at the
survivor, and every NON-DELETED contact whose `linkedId` pointed at an
absorbed primary is re-pointed at the survivor.  (Soft-deleted rows are
excluded by the `updateMany` filter — see the counterexample.) -/
theorem c1_merge_absorbs_primaries (d : IdentifyRequest) {s : Store}
    (hw : WF s) (hi : Inv s) :
    ∀ ms, ms = findMatchingContacts (sanitizeInput d).email (sanitizeInput d).phoneNumber s →
    ∀ prims, prims = ms.filter (fun c => c.linkPrecedence = LinkPrecedence.primary) →
    1 < prims.length →
    ∃ surv ∈ prims,
      (∀ q ∈ prims, surv.createdAt < q.createdAt ∨
        (surv.createdAt = q.createdAt ∧ surv.id ≤ q.id)) ∧
      (∃ c ∈ (identify d s).1.contacts, c.id = surv.id ∧
        c.linkPrecedence = LinkPrecedence.primary) ∧
      (∀ q ∈ prims, q.id ≠ surv.id →
        ∃ c ∈ (identify d s).1.contacts, c.id = q.id ∧
          c.linkPrecedence = LinkPrecedence.secondary ∧ c.linkedId = some surv.id) ∧
      (∀ c ∈ s.contacts, c.deletedAt = none →
        ∀ q ∈ prims, q.id ≠ surv.id → c.linkedId = some q.id →
        ∃ c' ∈ (identify d s).1.contacts, c'.id = c.id ∧
          c'.linkedId = some surv.id) := by
  intro ms hms prims hprims hlen
  have h0 : ms ≠ [] := by
    intro hnil
    rw [hnil] at hprims
    rw [hprims] at hlen
    simp at hlen
  obtain ⟨oldest, newer, hpc⟩ : ∃ o n, prims = o :: n := by
    cases hpcc : prims with
    | nil =>
      rw [hpcc] at hlen
      simp at hlen
    | cons o n => exact ⟨o, n, rfl⟩
  have hple : prims.Pairwise storeLe := by
    rw [hprims, hms]
    exact (matched_pairwise hw).filter _
  have hple2 : List.Pairwise storeLe (oldest :: newer) := hpc ▸ hple
  have hold_in_prims : oldest ∈ prims := hpc ▸ List.mem_cons_self _ _
  have hold_ms : oldest ∈ ms := by
    rw [hprims] at hold_in_prims
    exact (List.filter_sublist _).subset hold_in_prims
  have hold_store : oldest ∈ s.contacts := matched_mem (hms ▸ hold_ms)
  have hold_del : oldest.deletedAt = none := matched_not_deleted (hms ▸ hold_ms)
  have hold_prim : oldest.linkPrecedence = LinkPrecedence.primary := by
    rw [hprims] at hold_in_prims
    have := (List.mem_filter.mp hold_in_prims).2
    simpa using this
  have hold_link : oldest.linkedId = none := (hi oldest hold_store hold_del).1 hold_prim
  have hmin : ∀ q ∈ prims, oldest.createdAt < q.createdAt ∨
      (oldest.createdAt = q.createdAt ∧ oldest.id ≤ q.id) := by
    intro q hq
    rw [hpc] at hq
    rcases List.mem_cons.mp hq with rfl | hq
    · exact Or.inr ⟨rfl, Nat.le_refl _⟩
    · have hle := (List.pairwise_cons.mp hple2).1 q hq
      rcases Nat.lt_or_ge oldest.createdAt q.createdAt with hlt | hge
      · exact Or.inl hlt
      · exact Or.inr ⟨Nat.le_antisymm hle.2 hge, Nat.le_of_lt hle.1⟩
  have hq_newer : ∀ q ∈ prims, q.id ≠ oldest.id → q ∈ newer := by
    intro q hq hne
    rw [hpc] at hq
    rcases List.mem_cons.mp hq with rfl | hq
    · exact absurd rfl hne
    · exact hq
  -- The final store is a merge of `prims` over either the original store or
  -- the store extended with the freshly created secondary.
  have hmain : ∃ s1 : Store, (∀ c ∈ s.contacts, c ∈ s1.contacts) ∧
      (identify d s).1 = mergePrimaryContacts prims s1 := by
    have hch : (identify d s).1 = (identifyChain d s).1 := rfl
    rw [hch, identifyChain_existing (by rw [← hms]; exact h0)]
    by_cases hsc : shouldCreateNewContact
        (findMatchingContacts (sanitizeInput d).email (sanitizeInput d).phoneNumber s)
        (sanitizeInput d).email (sanitizeInput d).phoneNumber = true
    · have hfp : findPrimaryContact
          (findMatchingContacts (sanitizeInput d).email (sanitizeInput d).phoneNumber s) s
          = .ok (reduceOldest oldest newer) := by
        refine findPrimary_ok_of_prims ?_
        rw [← hms, ← hprims]
        exact hpc
      rw [processExisting_create hsc hfp]
      refine ⟨(s.create (sanitizeInput d).email (sanitizeInput d).phoneNumber
        (some (reduceOldest oldest newer).id) LinkPrecedence.secondary).2, ?_, ?_⟩
      · intro c hc
        rw [create_snd_contacts]
        exact List.mem_append_left _ hc
      · rw [afterCreate_fst, if_pos (by rw [← hms, ← hprims]; exact hlen)]
        rw [← hms, ← hprims]
    · have hsc2 : shouldCreateNewContact
          (findMatchingContacts (sanitizeInput d).email (sanitizeInput d).phoneNumber s)
          (sanitizeInput d).email (sanitizeInput d).phoneNumber = false := by
        simpa using hsc
      rw [processExisting_nocreate hsc2]
      refine ⟨s, fun c hc => hc, ?_⟩
      rw [afterCreate_fst, if_pos (by rw [← hms, ← hprims]; exact hlen)]
      rw [← hms, ← hprims]
  obtain ⟨s1, hs1, hfinal⟩ := hmain
  have hrows : ∀ q ∈ prims, q ∈ s1.contacts := by
    intro q hq
    refine hs1 q ?_
    rw [hprims] at hq
    exact matched_mem (hms ▸ (List.filter_sublist _).subset hq)
  obtain ⟨hsurv, hdemote, hrepoint⟩ :=
    merge_map_conclusions hpc hple hold_link hrows
  refine ⟨oldest, hold_in_prims, hmin, ?_, ?_, ?_⟩
  · exact ⟨oldest, by rw [hfinal]; exact hsurv, rfl, hold_prim⟩
  · intro q hq hne
    refine ⟨{ q with linkPrecedence := LinkPrecedence.secondary, linkedId := some oldest.id },
      ?_, rfl, rfl, rfl⟩
    rw [hfinal]
    exact hdemote q (hq_newer q hq hne)
  · intro c hc hdel q hq hne hlink
    obtain ⟨c', hc', hcid, hclink⟩ := hrepoint c (hs1 c hc) hdel
      ⟨q, hq_newer q hq hne, hlink⟩
    exact ⟨c', by rw [hfinal]; exact hc', hcid, hclink⟩

unseal List.merge List.mergeSort in
/-- C1 counterexample: a well-formed, invariant-satisfying store in which a
SOFT-DELETED contact (id 3) has `linkedId` pointing at the absorbed primary
(id 2).  The request matches both primaries and triggers a merge; primary 2
is demoted to the survivor (id 1), but the deleted row keeps
`linkedId = some 2` because the `updateMany` re-pointing filters on
`deletedAt: null` — contradicting the claim's "every contact whose linkedId
previously equalled an absorbed primary's id now has linkedId equal to the
surviving primary's id". -/
theorem c1_deleted_link_counterexample :
    WF ⟨[{ id := 1, email := none, phoneNumber := some "111", linkedId := none, linkPrecedence := LinkPrecedence.primary, createdAt := 0, deletedAt := none },
         { id := 2, email := none, phoneNumber := some "111", linkedId := none, linkPrecedence := LinkPrecedence.primary, createdAt := 1, deletedAt := none },
         { id := 3, email := none, phoneNumber := none, linkedId := some 2, linkPrecedence := LinkPrecedence.secondary, createdAt := 2, deletedAt := some 5 }], 4, 3⟩ ∧
    Inv ⟨[{ id := 1, email := none, phoneNumber := some "111", linkedId := none, linkPrecedence := LinkPrecedence.primary, createdAt := 0, deletedAt := none },
         { id := 2, email := none, phoneNumber := some "111", linkedId := none, linkPrecedence := LinkPrecedence.primary, createdAt := 1, deletedAt := none },
         { id := 3, email := none, phoneNumber := none, linkedId := some 2, linkPrecedence := LinkPrecedence.secondary, createdAt := 2, deletedAt := some 5 }], 4, 3⟩ ∧
    ((findMatchingContacts (sanitizeInput ⟨none, some "111"⟩).email
        (sanitizeInput ⟨none, some "111"⟩).phoneNumber
        ⟨[{ id := 1, email := none, phoneNumber := some "111", linkedId := none, linkPrecedence := LinkPrecedence.primary, createdAt := 0, deletedAt := none },
          { id := 2, email := none, phoneNumber := some "111", linkedId := none, linkPrecedence := LinkPrecedence.primary, createdAt := 1, deletedAt := none },
          { id := 3, email := none, phoneNumber := none, linkedId := some 2, linkPrecedence := LinkPrecedence.secondary, createdAt := 2, deletedAt := some 5 }], 4, 3⟩).filter
      (fun c => c.linkPrecedence = LinkPrecedence.primary)).length = 2 ∧
    (identify ⟨none, some "111"⟩
        ⟨[{ id := 1, email := none, phoneNumber := some "111", linkedId := none, linkPrecedence := LinkPrecedence.primary, createdAt := 0, deletedAt := none },
          { id := 2, email := none, phoneNumber := some "111", linkedId := none, linkPrecedence := LinkPrecedence.primary, createdAt := 1, deletedAt := none },
          { id := 3, email := none, phoneNumber := none, linkedId := some 2, linkPrecedence := LinkPrecedence.secondary, createdAt := 2, deletedAt := some 5 }], 4, 3⟩).1.contacts =
      [{ id := 1, email := none, phoneNumber := some "111", linkedId := none, linkPrecedence := LinkPrecedence.primary, createdAt := 0, deletedAt := none },
       { id := 2, email := none, phoneNumber := some "111", linkedId := some 1, linkPrecedence := LinkPrecedence.secondary, createdAt := 1, deletedAt := none },
       { id := 3, email := none, phoneNumber := none, linkedId := some 2, linkPrecedence := LinkPrecedence.secondary, createdAt := 2, deletedAt := some 5 }] := by
  refine ⟨by decide, by decide, by decide, by decide⟩

unseal List.merge List.mergeSort in
theorem c1_witness :
    ∃ surv ∈ ((findMatchingContacts (sanitizeInput ⟨none, some "111"⟩).email
        (sanitizeInput ⟨none, some "111"⟩).phoneNumber
        ⟨[{ id := 1, email := none, phoneNumber := some "111", linkedId := none, linkPrecedence := LinkPrecedence.primary, createdAt := 0, deletedAt := none },
          { id := 2, email := none, phoneNumber := some "111", linkedId := none, linkPrecedence := LinkPrecedence.primary, createdAt := 1, deletedAt := none }], 3, 2⟩).filter
      (fun c => c.linkPrecedence = LinkPrecedence.primary)),
      (∀ q ∈ ((findMatchingContacts (sanitizeInput ⟨none, some "111"⟩).email
          (sanitizeInput ⟨none, some "111"⟩).phoneNumber
          ⟨[{ id := 1, email := none, phoneNumber := some "111", linkedId := none, linkPrecedence := LinkPrecedence.primary, createdAt := 0, deletedAt := none },
            { id := 2, email := none, phoneNumber := some "111", linkedId := none, linkPrecedence := LinkPrecedence.primary, createdAt := 1, deletedAt := none }], 3, 2⟩).filter
        (fun c => c.linkPrecedence = LinkPrecedence.primary)),
        surv.createdAt < q.createdAt ∨ (surv.createdAt = q.createdAt ∧ surv.id ≤ q.id)) ∧
      (∃ c ∈ (identify ⟨none, some "111"⟩
          ⟨[{ id := 1, email := none, phoneNumber := some "111", linkedId := none, linkPrecedence := LinkPrecedence.primary, createdAt := 0, deletedAt := none },
            { id := 2, email := none, phoneNumber := some "111", linkedId := none, linkPrecedence := LinkPrecedence.primary, createdAt := 1, deletedAt := none }], 3, 2⟩).1.contacts,
        c.id = surv.id ∧ c.linkPrecedence = LinkPrecedence.primary) ∧
      (∀ q ∈ ((findMatchingContacts (sanitizeInput ⟨none, some "111"⟩).email
          (sanitizeInput ⟨none, some "111"⟩).phoneNumber
          ⟨[{ id := 1, email := none, phoneNumber := some "111", linkedId := none, linkPrecedence := LinkPrecedence.primary, createdAt := 0, deletedAt := none },
            { id := 2, email := none, phoneNumber := some "111", linkedId := none, linkPrecedence := LinkPrecedence.primary, createdAt := 1, deletedAt := none }], 3, 2⟩).filter
        (fun c => c.linkPrecedence = LinkPrecedence.primary)), q.id ≠ surv.id →
        ∃ c ∈ (identify ⟨none, some "111"⟩
            ⟨[{ id := 1, email := none, phoneNumber := some "111", linkedId := none, linkPrecedence := LinkPrecedence.primary, createdAt := 0, deletedAt := none },
              { id := 2, email := none, phoneNumber := some "111", linkedId := none, linkPrecedence := LinkPrecedence.primary, createdAt := 1, deletedAt := none }], 3, 2⟩).1.contacts,
          c.id = q.id ∧ c.linkPrecedence = LinkPrecedence.secondary ∧ c.linkedId = some surv.id) ∧
      (∀ c ∈ ([{ id := 1, email := none, phoneNumber := some "111", linkedId := none, linkPrecedence := LinkPrecedence.primary, createdAt := 0, deletedAt := none },
               { id := 2, email := none, phoneNumber := some "111", linkedId := none, linkPrecedence := LinkPrecedence.primary, createdAt := 1, deletedAt := none }] : List Contact),
        c.deletedAt = none →
        ∀ q ∈ ((findMatchingContacts (sanitizeInput ⟨none, some "111"⟩).email
            (sanitizeInput ⟨none, some "111"⟩).phoneNumber
            ⟨[{ id := 1, email := none, phoneNumber := some "111", linkedId := none, linkPrecedence := LinkPrecedence.primary, createdAt := 0, deletedAt := none },
              { id := 2, email := none, phoneNumber := some "111", linkedId := none, linkPrecedence := LinkPrecedence.primary, createdAt := 1, deletedAt := none }], 3, 2⟩).filter
          (fun c => c.linkPrecedence = LinkPrecedence.primary)), q.id ≠ surv.id →
          c.linkedId = some q.id →
          ∃ c' ∈ (identify ⟨none, some "111"⟩
              ⟨[{ id := 1, email := none, phoneNumber := some "111", linkedId := none, linkPrecedence := LinkPrecedence.primary, createdAt := 0, deletedAt := none },
                { id := 2, email := none, phoneNumber := some "111", linkedId := none, linkPrecedence := LinkPrecedence.primary, createdAt := 1, deletedAt := none }], 3, 2⟩).1.contacts,
            c'.id = c.id ∧ c'.linkedId = some surv.id) :=
  c1_merge_absorbs_primaries ⟨none, some "111"⟩ (by decide) (by decide)
    _ rfl _ rfl (by decide)

/-! ### C6: idempotence of an immediately repeated request -/

lemma any_congr_mem {α : Type} {p q : α → Bool} :
    ∀ l : List α, (∀ x ∈ l, p x = q x) → l.any p = l.any q := by
  intro l
  induction l with
  | nil =>
    intro _
    rfl
  | cons x t ih =>
    intro h
    rw [List.any_cons, List.any_cons, h x (List.mem_cons_self _ _),
      ih fun y hy => h y (List.mem_cons_of_mem _ hy)]

lemma find?_congr_mem {α : Type} {p q : α → Bool} :
    ∀ l : List α, (∀ x ∈ l, p x = q x) → l.find? p = l.find? q := by
  intro l
  induction l with
  | nil =>
    intro _
    rfl
  | cons x t ih =>
    intro h
    by_cases hqx : q x = true
    · rw [List.find?_cons_of_pos _ (by rw [h x (List.mem_cons_self _ _)]; exact hqx),
        List.find?_cons_of_pos _ hqx]
    · rw [List.find?_cons_of_neg _ (by rw [h x (List.mem_cons_self _ _)]; exact hqx),
        List.find?_cons_of_neg _ hqx]
      exact ih fun y hy => h y (List.mem_cons_of_mem _ hy)

/-- In a `storeLe`-pairwise list the ids are strictly increasing, so two
members with the same id are the same row. -/
lemma mem_id_inj : ∀ {l : List Contact}, l.Pairwise storeLe →
    ∀ {a b : Contact}, a ∈ l → b ∈ l → a.id = b.id → a = b := by
  intro l
  induction l with
  | nil =>
    intro _ a b ha
    cases ha
  | cons x t ih =>
    intro hp a b ha hb hab
    obtain ⟨hx, ht⟩ := List.pairwise_cons.mp hp
    rcases List.mem_cons.mp ha with ha1 | ha1 <;> rcases List.mem_cons.mp hb with hb1 | hb1
    · rw [ha1, hb1]
    · subst ha1
      exact absurd hab (by have := (hx b hb1).1; omega)
    · subst hb1
      exact absurd hab (by have := (hx a ha1).1; omega)
    · exact ih ht ha1 hb1 hab

lemma matchesWhere_of_fields {e p : Option String} {c c' : Contact}
    (he : c'.email = c.email) (hp : c'.phoneNumber = c.phoneNumber)
    (hd : c'.deletedAt = c.deletedAt) :
    matchesWhere e p c' = matchesWhere e p c := by
  simp only [matchesWhere, he, hp, hd]

/-- A non-deleted row carrying exactly the (truthy) input fields satisfies
the matching `where`. -/
lemma matchesWhere_self {e p : Option String} {c : Contact}
    (hce : c.email = e) (hcp : c.phoneNumber = p) (hcd : c.deletedAt = none)
    (ht : (optTruthy e || optTruthy p) = true) :
    matchesWhere e p c = true := by
  simp only [Bool.or_eq_true] at ht
  rcases ht with hte | htp
  · simp [matchesWhere, hte, hce, hcd]
  · simp [matchesWhere, htp, hcp, hcd]

/-- If the decision list already holds a row with exactly the input's fields
and at least one field is truthy, no new contact is created. -/
lemma shouldCreate_false_of_selfRow {l : List Contact} {e p : Option String} {c : Contact}
    (hc : c ∈ l) (hce : c.email = e) (hcp : c.phoneNumber = p)
    (ht : (optTruthy e || optTruthy p) = true) :
    shouldCreateNewContact l e p = false := by
  simp only [Bool.or_eq_true] at ht
  rcases ht with hte | htp
  · obtain ⟨a, rfl⟩ : ∃ a, e = some a := by
      cases e with
      | none => cases hte
      | some a => exact ⟨a, rfl⟩
    by_cases htp2 : optTruthy p = true
    · obtain ⟨b, rfl⟩ : ∃ b, p = some b := by
        cases p with
        | none => cases htp2
        | some b => exact ⟨b, rfl⟩
      have hex : (l.any fun contact =>
          jsStrictEq contact.email (some a) &&
            jsStrictEq contact.phoneNumber (some b)) = true :=
        List.any_eq_true.mpr ⟨c, hc, by rw [hce, hcp]; simp [jsStrictEq]⟩
      simp [shouldCreateNewContact, hex]
    · have hae : (l.any fun c => jsStrictEq c.email (some a)) = true :=
        List.any_eq_true.mpr ⟨c, hc, by rw [hce]; simp [jsStrictEq]⟩
      rw [Bool.not_eq_true] at htp2
      simp [shouldCreateNewContact, hte, htp2, hae]
  · obtain ⟨b, rfl⟩ : ∃ b, p = some b := by
      cases p with
      | none => cases htp
      | some b => exact ⟨b, rfl⟩
    by_cases hte2 : optTruthy e = true
    · obtain ⟨a, rfl⟩ : ∃ a, e = some a := by
        cases e with
        | none => cases hte2
        | some a => exact ⟨a, rfl⟩
      have hex : (l.any fun contact =>
          jsStrictEq contact.email (some a) &&
            jsStrictEq contact.phoneNumber (some b)) = true :=
        List.any_eq_true.mpr ⟨c, hc, by rw [hce, hcp]; simp [jsStrictEq]⟩
      simp [shouldCreateNewContact, hex]
    · have hap : (l.any fun c => jsStrictEq c.phoneNumber (some b)) = true :=
        List.any_eq_true.mpr ⟨c, hc, by rw [hcp]; simp [jsStrictEq]⟩
      rw [Bool.not_eq_true] at hte2
      simp [shouldCreateNewContact, htp, hte2, hap]

/-- The create decision only reads the email and phone columns, so it is
invariant under a transformation preserving them. -/
lemma shouldCreate_map {l : List Contact} {f : Contact → Contact} {e p : Option String}
    (hf : ∀ c, (f c).email = c.email ∧ (f c).phoneNumber = c.phoneNumber) :
    shouldCreateNewContact (l.map f) e p = shouldCreateNewContact l e p := by
  have h1 : ((l.map f).any fun contact =>
      jsStrictEq contact.email e && jsStrictEq contact.phoneNumber p) =
      (l.any fun contact =>
        jsStrictEq contact.email e && jsStrictEq contact.phoneNumber p) := by
    rw [List.any_map]
    exact any_congr_mem l fun x _ => by
      simp only [Function.comp_apply]
      rw [(hf x).1, (hf x).2]
  have h2 : ((l.map f).any fun c => jsStrictEq c.email e) =
      (l.any fun c => jsStrictEq c.email e) := by
    rw [List.any_map]
    exact any_congr_mem l fun x _ => by
      simp only [Function.comp_apply]
      rw [(hf x).1]
  have h3 : ((l.map f).any fun c => jsStrictEq c.phoneNumber p) =
      (l.any fun c => jsStrictEq c.phoneNumber p) := by
    rw [List.any_map]
    exact any_congr_mem l fun x _ => by
      simp only [Function.comp_apply]
      rw [(hf x).2]
  simp only [shouldCreateNewContact]
  rw [h1, h2, h3]

/-- The matching query on a store obtained by appending rows and applying a
transformation preserving the matched columns. -/
lemma findMatching_run2 {e p : Option String} {s s1 : Store} (hw : WF s) (hw1 : WF s1)
    (f : Contact → Contact) (ext : List Contact)
    (hs1 : s1.contacts = (s.contacts ++ ext).map f)
    (hf : ∀ c, (f c).email = c.email ∧ (f c).phoneNumber = c.phoneNumber ∧
      (f c).deletedAt = c.deletedAt) :
    findMatchingContacts e p s1 =
      (findMatchingContacts e p s ++ ext.filter (matchesWhere e p)).map f := by
  rw [findMatching_eq_filter hw1, findMatching_eq_filter hw, hs1, List.filter_map]
  have hcong : List.filter (matchesWhere e p ∘ f) (s.contacts ++ ext) =
      List.filter (matchesWhere e p) (s.contacts ++ ext) :=
    List.filter_congr fun x _ => by
      simp only [Function.comp_apply]
      exact matchesWhere_of_fields (hf x).1 (hf x).2.1 (hf x).2.2
  rw [hcong, List.filter_append]

/-- No pre-existing row of a well-formed store satisfying the chain
invariant belongs to the chain of a fresh id at or above the counter. -/
lemma chainPred_fresh_nil {s : Store} (hw : WF s) (hi : Inv s) {nid : Nat}
    (hnid : s.nextId ≤ nid) : ∀ c ∈ s.contacts, chainPred nid c = false := by
  intro c hc
  by_cases hdel : c.deletedAt = none
  · have hid : c.id ≠ nid := by
      have := hw.2.1 c hc
      omega
    have hlid : c.linkedId ≠ some nid := by
      intro hl
      cases hprec : c.linkPrecedence with
      | primary =>
        have := (hi c hc hdel).1 hprec
        rw [this] at hl
        cases hl
      | secondary =>
        obtain ⟨q, hq, _, _, hql⟩ := (hi c hc hdel).2 hprec
        rw [hql] at hl
        have hqid : q.id = nid := by
          simpa using hl
        have := hw.2.1 q hq
        omega
    simp [chainPred, hid, hlid, hdel]
  · simp [chainPred, hdel]

/-- A row is primary after the merge transformation iff it was primary and
was not demoted. -/
lemma mergeCF_prec_primary (o : Nat) (ids : List Nat) (c : Contact) :
    ((mergeCF o ids c).linkPrecedence = LinkPrecedence.primary) ↔
      (c.linkPrecedence = LinkPrecedence.primary ∧ c.id ∉ ids) := by
  unfold mergeCF
  split
  · rename_i h
    simp [h]
  · rename_i h
    split
    · simp [h]
    · simp [h]

lemma identify_ok_decompose {d : IdentifyRequest} {s s₁ : Store} {r : ContactResponse}
    (h : identify d s = (s₁, Except.ok r)) :
    (identifyChain d s).1 = s₁ ∧
    ∃ chain, (identifyChain d s).2 = Except.ok chain ∧
      formatResponse chain = Except.ok r := by
  have h1 : (identifyChain d s).1 = s₁ := congrArg Prod.fst h
  have h2 : ((identifyChain d s).2).bind formatResponse = Except.ok r := congrArg Prod.snd h
  refine ⟨h1, ?_⟩
  cases hc : (identifyChain d s).2 with
  | error msg =>
    rw [hc] at h2
    simp [Except.bind] at h2
  | ok chain =>
    rw [hc] at h2
    exact ⟨chain, rfl, h2⟩

lemma getAll_ok_decompose {l : List Contact} {s : Store} {chain : List Contact}
    (h : getAllContactsInChain l s = Except.ok chain) :
    ∃ R, findPrimaryContact l s = Except.ok R ∧
      chain = (s.contacts.filter (chainPred R.id)).mergeSort byCreatedAt := by
  unfold getAllContactsInChain at h
  cases hfp : findPrimaryContact l s with
  | error msg =>
    rw [hfp] at h
    simp [Except.map] at h
  | ok R =>
    rw [hfp] at h
    simp only [Except.map, Except.ok.injEq] at h
    exact ⟨R, rfl, h.symm⟩

/-- Unfolding a successful all-secondary primary resolution. -/
lemma findPrimary_query_ok {l : List Contact} {s : Store} {R : Contact}
    (hpr : l.filter (fun c => c.linkPrecedence = LinkPrecedence.primary) = [])
    (h : findPrimaryContact l s = Except.ok R) :
    ¬ (l.filterMap (fun c => c.linkedId)).length = 0 ∧
    (s.contacts.mergeSort byCreatedAt).find?
      (primaryLookupPred (l.filterMap fun c => c.linkedId)) = some R := by
  simp only [findPrimaryContact] at h
  rw [hpr] at h
  simp only [] at h
  split at h
  · cases h
  · rename_i hlen
    cases hfind : (s.contacts.mergeSort byCreatedAt).find?
        (primaryLookupPred (l.filterMap fun c => c.linkedId)) with
    | some q =>
      rw [hfind] at h
      simp only [Except.ok.injEq] at h
      subst h
      exact ⟨hlen, rfl⟩
    | none =>
      rw [hfind] at h
      cases h

lemma format_ok_primary {chain : List Contact} {r : ContactResponse}
    (h : formatResponse chain = Except.ok r) :
    ∃ P ∈ chain, P.linkPrecedence = LinkPrecedence.primary := by
  unfold formatResponse at h
  cases hf : chain.find? (fun c => c.linkPrecedence = LinkPrecedence.primary) with
  | none =>
    rw [hf] at h
    cases h
  | some P =>
    refine ⟨P, List.mem_of_find?_eq_some hf, ?_⟩
    have := List.find?_some hf
    simpa using this

/-- Appending an id already present does not change membership tests. -/
lemma contains_append_self {ids : List Nat} {y : Nat} (hy : y ∈ ids) :
    ∀ x : Nat, (ids ++ [y]).contains x = ids.contains x := by
  intro x
  by_cases hx : x ∈ ids
  · rw [show (ids ++ [y]).contains x = true from
      List.elem_iff.mpr (List.mem_append_left _ hx),
      show ids.contains x = true from List.elem_iff.mpr hx]
  · have h1 : x ∉ ids ++ [y] := by
      intro hc
      rcases List.mem_append.mp hc with hc | hc
      · exact hx hc
      · rw [List.mem_singleton] at hc
        subst hc
        exact hx hy
    have h2 : ¬ (ids ++ [y]).contains x = true := fun hc => h1 (List.elem_iff.mp hc)
    have h3 : ¬ ids.contains x = true := fun hc => hx (List.elem_iff.mp hc)
    rw [Bool.not_eq_true] at h2 h3
    rw [h2, h3]

lemma primaryLookupPred_append {ids : List Nat} {y : Nat} (hy : y ∈ ids) (c : Contact) :
    primaryLookupPred (ids ++ [y]) c = primaryLookupPred ids c := by
  unfold primaryLookupPred
  rw [contains_append_self hy]

lemma filterMap_linkedId_append (l : List Contact) {c : Contact} {v : Nat}
    (hc : c.linkedId = some v) :
    ((l ++ [c]).filterMap fun x => x.linkedId) =
      (l.filterMap fun x => x.linkedId) ++ [v] := by
  rw [List.filterMap_append]
  congr 1
  simp [List.filterMap_cons, hc]

/-- Rerunning the matching query right after a no-match create finds exactly
the fresh primary row. -/
lemma rerun_new_match {e p : Option String} {s : Store} (hw : WF s)
    (ht : (optTruthy e || optTruthy p) = true)
    (h0 : findMatchingContacts e p s = []) :
    findMatchingContacts e p (s.create e p none LinkPrecedence.primary).2 =
      [(s.create e p none LinkPrecedence.primary).1] := by
  rw [findMatching_run2 hw (wf_create hw e p none LinkPrecedence.primary) id
    [(s.create e p none LinkPrecedence.primary).1]
    (by rw [List.map_id]; exact create_snd_contacts s e p none LinkPrecedence.primary)
    (fun c => ⟨rfl, rfl, rfl⟩), h0]
  have hNmw : matchesWhere e p (s.create e p none LinkPrecedence.primary).1 = true :=
    matchesWhere_self rfl rfl rfl ht
  simp [List.filter_cons, hNmw]

/-- Rerunning the decision and chain phases against the singleton matching
set of the fresh primary changes nothing and reassembles the same chain. -/
lemma rerun_new_process {e p : Option String} {s : Store} (hw : WF s) (hi : Inv s)
    (ht : (optTruthy e || optTruthy p) = true) (d2 : IdentifyRequest)
    (hd2e : d2.email = e) (hd2p : d2.phoneNumber = p) :
    processExistingChain [(s.create e p none LinkPrecedence.primary).1] d2
        (s.create e p none LinkPrecedence.primary).2 =
      ((s.create e p none LinkPrecedence.primary).2,
        Except.ok [(s.create e p none LinkPrecedence.primary).1]) := by
  have hwN : WF (s.create e p none LinkPrecedence.primary).2 := wf_create hw _ _ _ _
  have hsc : shouldCreateNewContact [(s.create e p none LinkPrecedence.primary).1]
      d2.email d2.phoneNumber = false := by
    rw [hd2e, hd2p]
    exact shouldCreate_false_of_selfRow (List.mem_singleton.mpr rfl) rfl rfl ht
  rw [processExisting_nocreate hsc]
  have hprimsN : ([(s.create e p none LinkPrecedence.primary).1].filter
      fun c => c.linkPrecedence = LinkPrecedence.primary) =
      [(s.create e p none LinkPrecedence.primary).1] := by
    simp [List.filter_cons, Store.create]
  have hap1 : (afterCreatePhase [(s.create e p none LinkPrecedence.primary).1]
      (s.create e p none LinkPrecedence.primary).2).1 =
      (s.create e p none LinkPrecedence.primary).2 := by
    rw [afterCreate_fst, hprimsN]
    simp
  have hfpN : findPrimaryContact [(s.create e p none LinkPrecedence.primary).1]
      (s.create e p none LinkPrecedence.primary).2 =
      Except.ok (s.create e p none LinkPrecedence.primary).1 :=
    findPrimary_ok_of_prims hprimsN
  have hget : getAllContactsInChain [(s.create e p none LinkPrecedence.primary).1]
      (s.create e p none LinkPrecedence.primary).2 =
      Except.ok [(s.create e p none LinkPrecedence.primary).1] := by
    unfold getAllContactsInChain
    rw [hfpN]
    simp only [Except.map, Except.ok.injEq]
    rw [mergeSort_filter_eq hwN]
    rw [create_snd_contacts, List.filter_append]
    have hold : s.contacts.filter
        (chainPred ((s.create e p none LinkPrecedence.primary).1).id) = [] :=
      List.filter_eq_nil_iff.mpr fun c hc => by
        rw [chainPred_fresh_nil hw hi
          (show s.nextId ≤ (s.create e p none LinkPrecedence.primary).1.id from
            Nat.le_refl _) c hc]
        simp
    rw [hold]
    simp [List.filter_cons, chainPred, Store.create]
  rw [show afterCreatePhase [(s.create e p none LinkPrecedence.primary).1]
      (s.create e p none LinkPrecedence.primary).2 =
      ((afterCreatePhase [(s.create e p none LinkPrecedence.primary).1]
        (s.create e p none LinkPrecedence.primary).2).1,
       (afterCreatePhase [(s.create e p none LinkPrecedence.primary).1]
        (s.create e p none LinkPrecedence.primary).2).2) from rfl]
  rw [afterCreate_snd, hap1, hget]

/-- Wrapper for the second run of an existing-chain request: once the
matching set, the (negative) create decision, the (absent) merge condition,
the resolved primary and the reassembled chain are known, the whole chain
phase is a no-op returning the same chain. -/
lemma rerun_wrap {s₁ : Store} {ms₂ chain : List Contact} {K : Contact}
    (d2 : IdentifyRequest)
    (hms2 : findMatchingContacts (sanitizeInput d2).email (sanitizeInput d2).phoneNumber s₁
      = ms₂)
    (hne : ms₂ ≠ [])
    (hsc2 : shouldCreateNewContact ms₂ (sanitizeInput d2).email
      (sanitizeInput d2).phoneNumber = false)
    (hlen2 : (ms₂.filter fun c => c.linkPrecedence = LinkPrecedence.primary).length ≤ 1)
    (hfp2 : findPrimaryContact ms₂ s₁ = Except.ok K)
    (hchain2 : (s₁.contacts.filter (chainPred K.id)).mergeSort byCreatedAt = chain) :
    identifyChain d2 s₁ = (s₁, Except.ok chain) := by
  rw [identifyChain_existing (by rw [hms2]; exact hne), hms2]
  rw [processExisting_nocreate hsc2]
  have hap1 : (afterCreatePhase ms₂ s₁).1 = s₁ := by
    rw [afterCreate_fst, if_neg (by omega)]
  have hget : getAllContactsInChain ms₂ s₁ = Except.ok chain := by
    unfold getAllContactsInChain
    rw [hfp2]
    simp only [Except.map, Except.ok.injEq]
    exact hchain2
  rw [show afterCreatePhase ms₂ s₁ =
    ((afterCreatePhase ms₂ s₁).1, (afterCreatePhase ms₂ s₁).2) from rfl]
  rw [afterCreate_snd, hap1, hget]

/-- Appending a secondary whose `linkedId` is already among the collected
ones does not change an all-secondary primary resolution. -/
lemma findPrimary_query_eq {l : List Contact} {s' : Store} {v : Nat} {c : Contact}
    (hpr : l.filter (fun c => c.linkPrecedence = LinkPrecedence.primary) = [])
    (hprc : ((l ++ [c]).filter fun x => x.linkPrecedence = LinkPrecedence.primary) = [])
    (hc : c.linkedId = some v)
    (hv : v ∈ l.filterMap (fun x => x.linkedId)) :
    findPrimaryContact (l ++ [c]) s' = findPrimaryContact l s' := by
  simp only [findPrimaryContact, hpr, hprc]
  rw [filterMap_linkedId_append l hc]
  rw [if_neg (by simp), if_neg (by
    intro h0
    rw [List.length_eq_zero] at h0
    rw [h0] at hv
    cases hv)]
  rw [find?_congr_mem _ (fun x _ => primaryLookupPred_append hv x)]

/-- The primaries surviving in the merged row list: exactly the untouched
oldest primary. -/
lemma filter_primary_map_cf {l : List Contact} {p0 : Contact} {rest : List Contact}
    (hpr : l.filter (fun c => c.linkPrecedence = LinkPrecedence.primary) = p0 :: rest)
    (hnin : p0.id ∉ rest.map (fun c => c.id))
    (hp0fix : mergeCF p0.id (rest.map fun c => c.id) p0 = p0) :
    ((l.map (mergeCF p0.id (rest.map fun c => c.id))).filter
      fun c => c.linkPrecedence = LinkPrecedence.primary) = [p0] := by
  rw [List.filter_map]
  have hstep1 : l.filter ((fun c => decide (c.linkPrecedence = LinkPrecedence.primary)) ∘
      mergeCF p0.id (rest.map fun c => c.id)) =
      l.filter (fun c => decide (c.id ∉ rest.map fun c => c.id) &&
        decide (c.linkPrecedence = LinkPrecedence.primary)) :=
    List.filter_congr fun x _ => by
      simp only [Function.comp_apply]
      rw [decide_eq_decide.mpr (mergeCF_prec_primary _ _ x), Bool.decide_and, Bool.and_comm]
  rw [hstep1,
    ← @List.filter_filter _ (fun c => decide (c.id ∉ rest.map fun c => c.id))
      (fun c => decide (c.linkPrecedence = LinkPrecedence.primary)) l,
    hpr]
  rw [List.filter_cons, if_pos (by simpa using hnin)]
  have hrestnil : rest.filter (fun c => decide (c.id ∉ rest.map fun c => c.id)) = [] :=
    List.filter_eq_nil_iff.mpr fun q hq => by
      simp only [decide_eq_true_eq]
      intro hq2
      exact hq2 (List.mem_map.mpr ⟨q, hq, rfl⟩)
  rw [hrestnil]
  simp [hp0fix]

/-- If the response assembly of the rebuilt chain succeeded, the primary it
found forces the resolved primary to be the untouched oldest one: a merge
that survived to a successful response kept its oldest primary intact. -/
lemma chain_primary_survivor {s s₁ : Store} {base : List Contact}
    {p0 : Contact} {rest : List Contact} {R₂ : Contact} {chain : List Contact}
    {r : ContactResponse}
    (hi : Inv s)
    (hbpw : base.Pairwise storeLe)
    (hbsub : ∀ c ∈ base, c.linkPrecedence = LinkPrecedence.primary → c ∈ s.contacts)
    (hs1c : s₁.contacts = base.map (mergeCF p0.id (rest.map fun c => c.id)))
    (hR₂eq : R₂ = reduceOldest p0 rest)
    (hR₂base : R₂ ∈ base)
    (hchaineq : chain = (s₁.contacts.filter (chainPred R₂.id)).mergeSort byCreatedAt)
    (hfmt : formatResponse chain = Except.ok r) :
    R₂ = p0 := by
  obtain ⟨P, hPchain, hPprim⟩ := format_ok_primary hfmt
  rw [hchaineq, List.mem_mergeSort, List.mem_filter] at hPchain
  obtain ⟨hPmem, hPpred⟩ := hPchain
  rw [hs1c] at hPmem
  obtain ⟨c₀, hc₀, hPc⟩ := List.mem_map.mp hPmem
  rw [← hPc, mergeCF_prec_primary] at hPprim
  obtain ⟨hc₀prim, hc₀nin⟩ := hPprim
  have hc₀s : c₀ ∈ s.contacts := hbsub c₀ hc₀ hc₀prim
  simp only [chainPred, Bool.and_eq_true, Bool.or_eq_true, decide_eq_true_eq] at hPpred
  have hPdel : P.deletedAt = none := hPpred.2
  have hc₀del : c₀.deletedAt = none := by
    rw [← hPc, mergeCF_deletedAt_eq] at hPdel
    exact hPdel
  have hc₀link : c₀.linkedId = none := (hi c₀ hc₀s hc₀del).1 hc₀prim
  have hc₀fix : mergeCF p0.id (rest.map fun c => c.id) c₀ = c₀ :=
    mergeCF_skip hc₀nin (by rintro ⟨_, x, _, hx⟩; rw [hc₀link] at hx; cases hx)
  have hPc₀ : P = c₀ := by rw [← hPc, hc₀fix]
  have hPid : c₀.id = R₂.id := by
    rcases hPpred.1 with h | h
    · rw [← hPc₀]
      exact h
    · rw [hPc₀, hc₀link] at h
      cases h
  have hc₀R₂ : c₀ = R₂ := mem_id_inj hbpw hc₀ hR₂base hPid
  have hR₂nin : R₂.id ∉ rest.map (fun c => c.id) := by
    rw [← hc₀R₂]
    exact hc₀nin
  have hrm : R₂ ∈ p0 :: rest := by
    rw [hR₂eq]
    exact reduceOldest_mem rest p0
  rcases List.mem_cons.mp hrm with h | h
  · exact h
  · exact absurd (List.mem_map.mpr ⟨R₂, h, rfl⟩) hR₂nin

unseal List.merge List.mergeSort in
/-- C6 counterexample: with neither field present, repeating the identical
request is NOT a no-op — the second run creates a second contact row and
returns a different response (a fresh primary each time). -/
theorem c6_empty_request_counterexample :
    (identify ⟨none, none⟩ ((identify ⟨none, none⟩ ⟨[], 1, 0⟩).1)).1 ≠
      (identify ⟨none, none⟩ ⟨[], 1, 0⟩).1 ∧
    (identify ⟨none, none⟩ ((identify ⟨none, none⟩ ⟨[], 1, 0⟩).1)).2 ≠
      (identify ⟨none, none⟩ ⟨[], 1, 0⟩).2 :=
  ⟨by decide, by decide⟩

/-- C6 (amended): provided the sanitized request retains at least one truthy
field, an immediately repeated identical request is a no-op: starting from a
well-formed store satisfying the chain invariant, if the first run succeeded
then the second run writes nothing (same final store) and returns the same
response.  (The counterexample shows the field-less request is not
idempotent: each run creates a fresh primary.) -/
theorem c6_idempotent_rerun (d : IdentifyRequest) {s s₁ : Store} {r : ContactResponse}
    (hw : WF s) (hi : Inv s)
    (ht : (optTruthy (sanitizeInput d).email ||
      optTruthy (sanitizeInput d).phoneNumber) = true)
    (h1 : identify d s = (s₁, Except.ok r)) :
    identify d s₁ = (s₁, Except.ok r) := by
  obtain ⟨hst, chain, hchain, hfmt⟩ := identify_ok_decompose h1
  have hw1 : WF s₁ := hst ▸ (identifyChain_WF_Inv d hw hi).1
  suffices hsuff : identifyChain d s₁ = (s₁, Except.ok chain) by
    show ((identifyChain d s₁).1, ((identifyChain d s₁).2).bind formatResponse) =
      (s₁, Except.ok r)
    rw [hsuff]
    show (s₁, formatResponse chain) = (s₁, Except.ok r)
    rw [hfmt]
  by_cases h0 : findMatchingContacts (sanitizeInput d).email
      (sanitizeInput d).phoneNumber s = []
  · -- the first run created a fresh primary; the second run matches exactly it
    have hsEq : (s.create (sanitizeInput d).email (sanitizeInput d).phoneNumber none
        LinkPrecedence.primary).2 = s₁ := by
      rw [identifyChain_new h0] at hst
      exact hst
    have hchEq : chain = [(s.create (sanitizeInput d).email (sanitizeInput d).phoneNumber
        none LinkPrecedence.primary).1] := by
      rw [identifyChain_new h0] at hchain
      have h2 : Except.ok [(s.create (sanitizeInput d).email (sanitizeInput d).phoneNumber
          none LinkPrecedence.primary).1] = Except.ok chain := hchain
      simp only [Except.ok.injEq] at h2
      exact h2.symm
    subst hchEq
    rw [← hsEq]
    rw [identifyChain_existing (by rw [rerun_new_match hw ht h0]; simp)]
    rw [rerun_new_match hw ht h0]
    exact rerun_new_process hw hi ht (sanitizeInput d) rfl rfl
  · -- the first run processed an existing chain
    obtain ⟨ms, hmsdef⟩ : ∃ ms, findMatchingContacts (sanitizeInput d).email
        (sanitizeInput d).phoneNumber s = ms := ⟨_, rfl⟩
    have hmsne : ms ≠ [] := by
      rw [← hmsdef]
      exact h0
    have hstP : (processExistingChain ms (sanitizeInput d) s).1 = s₁ := by
      rw [← hst, identifyChain_existing h0, hmsdef]
    have hchP : (processExistingChain ms (sanitizeInput d) s).2 = Except.ok chain := by
      rw [← hchain, identifyChain_existing h0, hmsdef]
    have hsub : ∀ c ∈ ms, c ∈ s.contacts := fun c hc =>
      matched_mem (e := (sanitizeInput d).email) (p := (sanitizeInput d).phoneNumber)
        (by rw [hmsdef]; exact hc)
    have hdel : ∀ c ∈ ms, c.deletedAt = none := fun c hc =>
      matched_not_deleted (e := (sanitizeInput d).email) (p := (sanitizeInput d).phoneNumber)
        (by rw [hmsdef]; exact hc)
    have hpw : ms.Pairwise storeLe := by
      rw [← hmsdef]
      exact matched_pairwise hw
    by_cases hsc : shouldCreateNewContact ms (sanitizeInput d).email
        (sanitizeInput d).phoneNumber = true
    · -- the first run appended a secondary linked to the resolved primary R
      cases hfp : findPrimaryContact ms s with
      | error msg =>
        exfalso
        have h2 := hchP
        rw [processExisting_err hsc hfp] at h2
        simp at h2
      | ok R =>
        obtain ⟨N2, sN, hNdef⟩ : ∃ N2 sN, s.create (sanitizeInput d).email
            (sanitizeInput d).phoneNumber (some R.id) LinkPrecedence.secondary = (N2, sN) :=
          ⟨_, _, rfl⟩
        have hN2 : (s.create (sanitizeInput d).email (sanitizeInput d).phoneNumber
            (some R.id) LinkPrecedence.secondary).1 = N2 := congrArg Prod.fst hNdef
        have hsN : (s.create (sanitizeInput d).email (sanitizeInput d).phoneNumber
            (some R.id) LinkPrecedence.secondary).2 = sN := congrArg Prod.snd hNdef
        have hN2e : N2.email = (sanitizeInput d).email := by rw [← hN2]; rfl
        have hN2p : N2.phoneNumber = (sanitizeInput d).phoneNumber := by rw [← hN2]; rfl
        have hN2del : N2.deletedAt = none := by rw [← hN2]; rfl
        have hN2prec : N2.linkPrecedence = LinkPrecedence.secondary := by rw [← hN2]; rfl
        have hN2link : N2.linkedId = some R.id := by rw [← hN2]; rfl
        have hsNc : sN.contacts = s.contacts ++ [N2] := by
          rw [← hsN, ← hN2]
          exact create_snd_contacts s _ _ _ _
        have hwN : WF sN := by
          rw [← hsN]
          exact wf_create hw _ _ _ _
        have hN2mw : matchesWhere (sanitizeInput d).email (sanitizeInput d).phoneNumber N2
            = true := matchesWhere_self hN2e hN2p hN2del ht
        have hstA : (afterCreatePhase ms sN).1 = s₁ := by
          have h2 := hstP
          rw [processExisting_create hsc hfp, hsN] at h2
          exact h2
        have hchA : getAllContactsInChain ms s₁ = Except.ok chain := by
          have h2 := hchP
          rw [processExisting_create hsc hfp, hsN, afterCreate_snd, hstA] at h2
          exact h2
        obtain ⟨R₂, hfp2, hchaineq⟩ := getAll_ok_decompose hchA
        cases hpr : ms.filter (fun c => c.linkPrecedence = LinkPrecedence.primary) with
        | nil =>
          -- all-secondary matching set: both resolutions use the linkedId query
          obtain ⟨hlenR, hfindR⟩ := findPrimary_query_ok hpr hfp
          have hpredR := List.find?_some hfindR
          simp only [primaryLookupPred, Bool.and_eq_true, decide_eq_true_eq] at hpredR
          have hRid : R.id ∈ ms.filterMap (fun c => c.linkedId) :=
            List.elem_iff.mp hpredR.1.1
          have hap1 : (afterCreatePhase ms sN).1 = sN := by
            rw [afterCreate_fst, if_neg (by rw [hpr]; simp)]
          have hsNs1 : sN = s₁ := by
            rw [← hap1]
            exact hstA
          have hs1c : s₁.contacts = (s.contacts ++ [N2]).map id := by
            rw [List.map_id, ← hsNs1]
            exact hsNc
          have hms2 : findMatchingContacts (sanitizeInput d).email
              (sanitizeInput d).phoneNumber s₁ = ms ++ [N2] := by
            rw [findMatching_run2 hw hw1 id [N2] hs1c (fun c => ⟨rfl, rfl, rfl⟩), hmsdef]
            simp [List.filter_cons, hN2mw]
          have hsc2 : shouldCreateNewContact (ms ++ [N2]) (sanitizeInput d).email
              (sanitizeInput d).phoneNumber = false :=
            shouldCreate_false_of_selfRow
              (List.mem_append_right _ (List.mem_singleton.mpr rfl)) hN2e hN2p ht
          have hpr2 : ((ms ++ [N2]).filter fun c =>
              c.linkPrecedence = LinkPrecedence.primary) = [] := by
            rw [List.filter_append, hpr]
            simp [List.filter_cons, hN2prec]
          have hfp2A : findPrimaryContact (ms ++ [N2]) s₁ = Except.ok R₂ := by
            rw [findPrimary_query_eq hpr hpr2 hN2link hRid]
            exact hfp2
          exact rerun_wrap d hms2 (by simp) hsc2 (by rw [hpr2]; simp) hfp2A hchaineq.symm
        | cons p0 rest =>
          have hple : (p0 :: rest).Pairwise storeLe := by
            rw [← hpr]
            exact hpw.filter _
          have hnin : p0.id ∉ rest.map (fun c => c.id) := by
            intro hin
            obtain ⟨q, hq, hqid⟩ := List.mem_map.mp hin
            have hlt : p0.id < q.id := ((List.pairwise_cons.mp hple).1 q hq).1
            omega
          have hp0f : p0 ∈ ms.filter (fun c =>
              c.linkPrecedence = LinkPrecedence.primary) := by
            rw [hpr]
            exact List.mem_cons_self _ _
          have hp0ms : p0 ∈ ms := (List.filter_sublist _).subset hp0f
          have hp0prim : p0.linkPrecedence = LinkPrecedence.primary := by
            have := (List.mem_filter.mp hp0f).2
            simpa using this
          have hp0del : p0.deletedAt = none := hdel p0 hp0ms
          have hp0mem : p0 ∈ s.contacts := hsub p0 hp0ms
          have hp0link : p0.linkedId = none := (hi p0 hp0mem hp0del).1 hp0prim
          have hp0fix : mergeCF p0.id (rest.map fun c => c.id) p0 = p0 :=
            mergeCF_skip hnin (by rintro ⟨_, x, _, hx⟩; rw [hp0link] at hx; cases hx)
          have hR₂eq : R₂ = reduceOldest p0 rest := by
            have h2 := findPrimary_ok_of_prims (s := s₁) hpr
            rw [hfp2] at h2
            simp only [Except.ok.injEq] at h2
            exact h2
          cases rest with
          | nil =>
            -- single matched primary: no merge happened
            have hap1 : (afterCreatePhase ms sN).1 = sN := by
              rw [afterCreate_fst, if_neg (by rw [hpr]; simp)]
            have hsNs1 : sN = s₁ := by
              rw [← hap1]
              exact hstA
            have hs1c : s₁.contacts = (s.contacts ++ [N2]).map id := by
              rw [List.map_id, ← hsNs1]
              exact hsNc
            have hms2 : findMatchingContacts (sanitizeInput d).email
                (sanitizeInput d).phoneNumber s₁ = ms ++ [N2] := by
              rw [findMatching_run2 hw hw1 id [N2] hs1c (fun c => ⟨rfl, rfl, rfl⟩), hmsdef]
              simp [List.filter_cons, hN2mw]
            have hsc2 : shouldCreateNewContact (ms ++ [N2]) (sanitizeInput d).email
                (sanitizeInput d).phoneNumber = false :=
              shouldCreate_false_of_selfRow
                (List.mem_append_right _ (List.mem_singleton.mpr rfl)) hN2e hN2p ht
            have hpr2 : ((ms ++ [N2]).filter fun c =>
                c.linkPrecedence = LinkPrecedence.primary) = [p0] := by
              rw [List.filter_append, hpr]
              simp [List.filter_cons, hN2prec]
            have hfp2A : findPrimaryContact (ms ++ [N2]) s₁ = Except.ok R₂ := by
              rw [findPrimary_ok_of_prims (s := s₁) hpr2, hR₂eq]
            exact rerun_wrap d hms2 (by simp) hsc2 (by rw [hpr2]; simp) hfp2A hchaineq.symm
          | cons q1 qrest =>
            -- more than one matched primary: the first run merged the chains
            have hmap : mergePrimaryContacts
                (ms.filter fun c => c.linkPrecedence = LinkPrecedence.primary) sN =
                { sN with contacts := sN.contacts.map (mergeCF p0.id ((q1 :: qrest).map fun c => c.id)) } := by
              refine mergePrimary_eq_map sN ?_ hnin
              rw [hpr]
              exact List.mergeSort_of_sorted (hple.imp storeLe_byCreatedAt)
            have hap1 : (afterCreatePhase ms sN).1 =
                { sN with contacts := sN.contacts.map (mergeCF p0.id ((q1 :: qrest).map fun c => c.id)) } := by
              rw [afterCreate_fst,
                if_pos (by rw [hpr]; simp only [List.length_cons]; omega), hmap]
            have hs1A : s₁ = { sN with contacts := sN.contacts.map (mergeCF p0.id ((q1 :: qrest).map fun c => c.id)) } := by
              rw [← hstA, hap1]
            have hs1c : s₁.contacts = (s.contacts ++ [N2]).map
                (mergeCF p0.id ((q1 :: qrest).map fun c => c.id)) := by
              rw [hs1A]
              show sN.contacts.map _ = _
              rw [hsNc]
            have hbpw : (s.contacts ++ [N2]).Pairwise storeLe := by
              rw [← hsNc]
              exact hwN.1
            have hbsub : ∀ c ∈ s.contacts ++ [N2],
                c.linkPrecedence = LinkPrecedence.primary → c ∈ s.contacts := by
              intro c hc hcp
              rcases List.mem_append.mp hc with hc | hc
              · exact hc
              · rw [List.mem_singleton] at hc
                subst hc
                rw [hN2prec] at hcp
                cases hcp
            have hR₂mem : R₂ ∈ s.contacts := by
              have hrm : R₂ ∈ p0 :: q1 :: qrest := by
                rw [hR₂eq]
                exact reduceOldest_mem _ p0
              have h2 : R₂ ∈ ms.filter (fun c =>
                  c.linkPrecedence = LinkPrecedence.primary) := by
                rw [hpr]
                exact hrm
              exact hsub R₂ ((List.filter_sublist _).subset h2)
            have hR₂p0 : R₂ = p0 :=
              chain_primary_survivor hi hbpw hbsub hs1c hR₂eq
                (List.mem_append_left _ hR₂mem) hchaineq hfmt
            have hms2 : findMatchingContacts (sanitizeInput d).email
                (sanitizeInput d).phoneNumber s₁ =
                (ms ++ [N2]).map (mergeCF p0.id ((q1 :: qrest).map fun c => c.id)) := by
              rw [findMatching_run2 hw hw1
                (mergeCF p0.id ((q1 :: qrest).map fun c => c.id)) [N2] hs1c
                (fun c => ⟨mergeCF_email_eq _ _ _, mergeCF_phone_eq _ _ _,
                  mergeCF_deletedAt_eq _ _ _⟩), hmsdef]
              simp [List.filter_cons, hN2mw]
            have hsc2 : shouldCreateNewContact
                ((ms ++ [N2]).map (mergeCF p0.id ((q1 :: qrest).map fun c => c.id)))
                (sanitizeInput d).email (sanitizeInput d).phoneNumber = false := by
              rw [shouldCreate_map
                (fun c => ⟨mergeCF_email_eq _ _ _, mergeCF_phone_eq _ _ _⟩)]
              exact shouldCreate_false_of_selfRow
                (List.mem_append_right _ (List.mem_singleton.mpr rfl)) hN2e hN2p ht
            have hprA : ((ms ++ [N2]).filter fun c =>
                c.linkPrecedence = LinkPrecedence.primary) = p0 :: q1 :: qrest := by
              rw [List.filter_append, hpr]
              simp [List.filter_cons, hN2prec]
            have hpr2 : (((ms ++ [N2]).map
                (mergeCF p0.id ((q1 :: qrest).map fun c => c.id))).filter
                fun c => c.linkPrecedence = LinkPrecedence.primary) = [p0] :=
              filter_primary_map_cf hprA hnin hp0fix
            have hfp2A : findPrimaryContact
                ((ms ++ [N2]).map (mergeCF p0.id ((q1 :: qrest).map fun c => c.id))) s₁ =
                Except.ok R₂ := by
              rw [findPrimary_ok_of_prims (s := s₁) hpr2, hR₂p0]
              rfl
            have hne2 : ((ms ++ [N2]).map
                (mergeCF p0.id ((q1 :: qrest).map fun c => c.id))) ≠ [] := by
              simp
            exact rerun_wrap d hms2 hne2 hsc2 (by rw [hpr2]; simp) hfp2A hchaineq.symm
    · -- no row was created by the first run
      have hscF : shouldCreateNewContact ms (sanitizeInput d).email
          (sanitizeInput d).phoneNumber = false := by
        simpa using hsc
      by_cases hlen : (ms.filter fun c =>
          c.linkPrecedence = LinkPrecedence.primary).length > 1
      · -- merge without create
        have hstA : (afterCreatePhase ms s).1 = s₁ := by
          have h2 := hstP
          rw [processExisting_nocreate hscF] at h2
          exact h2
        have hchA : getAllContactsInChain ms s₁ = Except.ok chain := by
          have h2 := hchP
          rw [processExisting_nocreate hscF, afterCreate_snd, hstA] at h2
          exact h2
        obtain ⟨R₂, hfp2, hchaineq⟩ := getAll_ok_decompose hchA
        cases hpr : ms.filter (fun c => c.linkPrecedence = LinkPrecedence.primary) with
        | nil =>
          rw [hpr] at hlen
          simp at hlen
        | cons p0 rest =>
          have hple : (p0 :: rest).Pairwise storeLe := by
            rw [← hpr]
            exact hpw.filter _
          have hnin : p0.id ∉ rest.map (fun c => c.id) := by
            intro hin
            obtain ⟨q, hq, hqid⟩ := List.mem_map.mp hin
            have hlt : p0.id < q.id := ((List.pairwise_cons.mp hple).1 q hq).1
            omega
          have hp0f : p0 ∈ ms.filter (fun c =>
              c.linkPrecedence = LinkPrecedence.primary) := by
            rw [hpr]
            exact List.mem_cons_self _ _
          have hp0ms : p0 ∈ ms := (List.filter_sublist _).subset hp0f
          have hp0prim : p0.linkPrecedence = LinkPrecedence.primary := by
            have := (List.mem_filter.mp hp0f).2
            simpa using this
          have hp0del : p0.deletedAt = none := hdel p0 hp0ms
          have hp0mem : p0 ∈ s.contacts := hsub p0 hp0ms
          have hp0link : p0.linkedId = none := (hi p0 hp0mem hp0del).1 hp0prim
          have hp0fix : mergeCF p0.id (rest.map fun c => c.id) p0 = p0 :=
            mergeCF_skip hnin (by rintro ⟨_, x, _, hx⟩; rw [hp0link] at hx; cases hx)
          have hmap : mergePrimaryContacts
              (ms.filter fun c => c.linkPrecedence = LinkPrecedence.primary) s =
              { s with contacts := s.contacts.map (mergeCF p0.id (rest.map fun c => c.id)) } := by
            refine mergePrimary_eq_map s ?_ hnin
            rw [hpr]
            exact List.mergeSort_of_sorted (hple.imp storeLe_byCreatedAt)
          have hs1A : s₁ = { s with contacts := s.contacts.map (mergeCF p0.id (rest.map fun c => c.id)) } := by
            rw [← hstA, afterCreate_fst, if_pos hlen, hmap]
          have hs1c0 : s₁.contacts = s.contacts.map
              (mergeCF p0.id (rest.map fun c => c.id)) := by
            rw [hs1A]
          have hR₂eq : R₂ = reduceOldest p0 rest := by
            have h2 := findPrimary_ok_of_prims (s := s₁) hpr
            rw [hfp2] at h2
            simp only [Except.ok.injEq] at h2
            exact h2
          have hR₂mem : R₂ ∈ s.contacts := by
            have hrm : R₂ ∈ p0 :: rest := by
              rw [hR₂eq]
              exact reduceOldest_mem _ p0
            have h2 : R₂ ∈ ms.filter (fun c =>
                c.linkPrecedence = LinkPrecedence.primary) := by
              rw [hpr]
              exact hrm
            exact hsub R₂ ((List.filter_sublist _).subset h2)
          have hR₂p0 : R₂ = p0 :=
            chain_primary_survivor hi hw.1 (fun c hc _ => hc) hs1c0 hR₂eq
              hR₂mem hchaineq hfmt
          have hms2 : findMatchingContacts (sanitizeInput d).email
              (sanitizeInput d).phoneNumber s₁ =
              ms.map (mergeCF p0.id (rest.map fun c => c.id)) := by
            rw [findMatching_run2 hw hw1 (mergeCF p0.id (rest.map fun c => c.id)) []
              (by rw [List.append_nil]; exact hs1c0)
              (fun c => ⟨mergeCF_email_eq _ _ _, mergeCF_phone_eq _ _ _,
                mergeCF_deletedAt_eq _ _ _⟩), hmsdef]
            simp
          have hsc2 : shouldCreateNewContact
              (ms.map (mergeCF p0.id (rest.map fun c => c.id)))
              (sanitizeInput d).email (sanitizeInput d).phoneNumber = false := by
            rw [shouldCreate_map
              (fun c => ⟨mergeCF_email_eq _ _ _, mergeCF_phone_eq _ _ _⟩)]
            exact hscF
          have hpr2 : ((ms.map (mergeCF p0.id (rest.map fun c => c.id))).filter
              fun c => c.linkPrecedence = LinkPrecedence.primary) = [p0] :=
            filter_primary_map_cf hpr hnin hp0fix
          have hfp2A : findPrimaryContact
              (ms.map (mergeCF p0.id (rest.map fun c => c.id))) s₁ = Except.ok R₂ := by
            rw [findPrimary_ok_of_prims (s := s₁) hpr2, hR₂p0]
            rfl
          have hne2 : ms.map (mergeCF p0.id (rest.map fun c => c.id)) ≠ [] := by
            simp [hmsne]
          exact rerun_wrap d hms2 hne2 hsc2 (by rw [hpr2]; simp) hfp2A hchaineq.symm
      · -- neither create nor merge: the first run left the store untouched
        have hs1s : s₁ = s := by
          have h2 := hstP
          rw [processExisting_nocreate hscF, afterCreate_fst, if_neg hlen] at h2
          exact h2.symm
        rw [hs1s] at hst ⊢
        rw [show identifyChain d s = ((identifyChain d s).1, (identifyChain d s).2) from rfl,
          hst, hchain]

unseal List.merge List.mergeSort in
theorem c6_witness :
    WF (⟨[], 1, 0⟩ : Store) ∧ Inv (⟨[], 1, 0⟩ : Store) ∧
    (optTruthy (sanitizeInput ⟨none, some "123"⟩).email ||
      optTruthy (sanitizeInput ⟨none, some "123"⟩).phoneNumber) = true ∧
    identify ⟨none, some "123"⟩ (⟨[], 1, 0⟩ : Store) =
      ((⟨[{ id := 1, email := none, phoneNumber := some "123", linkedId := none, linkPrecedence := LinkPrecedence.primary, createdAt := 0, deletedAt := none }], 2, 1⟩ : Store),
        Except.ok { primaryContactId := 1, emails := [], phoneNumbers := ["123"], secondaryContactIds := [] }) ∧
    identify ⟨none, some "123"⟩
        (⟨[{ id := 1, email := none, phoneNumber := some "123", linkedId := none, linkPrecedence := LinkPrecedence.primary, createdAt := 0, deletedAt := none }], 2, 1⟩ : Store) =
      ((⟨[{ id := 1, email := none, phoneNumber := some "123", linkedId := none, linkPrecedence := LinkPrecedence.primary, createdAt := 0, deletedAt := none }], 2, 1⟩ : Store),
        Except.ok { primaryContactId := 1, emails := [], phoneNumbers := ["123"], secondaryContactIds := [] }) :=
  ⟨by decide, by decide, by decide, by decide,
    c6_idempotent_rerun ⟨none, some "123"⟩ (s := ⟨[], 1, 0⟩)
      (by decide) (by decide) (by decide) (by decide)⟩

end Bitespeed
